import Mathlib

/-!
# Verification of the kinda-repository-server collection-request core

Shallow embedding of `src/src/index.js` (the richest revision of the module:
`KindaRepositoryServer`), covering the collection-request dispatcher
(`handleCollectionRequest`) and every handler reachable from it, together with
the authorization gate (`authorizeRequest`), the item-resolution helper
(`_getItem`), the event pipeline and the custom-method machinery.

External collaborators (storage engine, HTTP transport, body codec, lodash
string helpers) are modelled through the exact interfaces the core consumes:

* the storage `Collection`/`Item` capability is a concrete key-value store
  (`Store`) exposing `getItem` / `createItem` / `save` / `delete` / `findItems`
  / `countItems` / `findAndDeleteItems` / `getItems` / `transaction`, plus two
  oracles for arbitrary named custom methods (`CollectionConfig`);
* the Koa-style response context is a record with the body/status interplay of
  Koa (`ctx.body = v` defaults the status to 200 when no explicit status has
  been set; `ctx.status = n` sets an explicit status; `ctx.throw` aborts with
  an HTTP error);
* `_.camelCase` / `_.kebabCase` are modelled on the domain the server uses
  them on (hyphen-separated URL fragments resp. camel-cased identifiers);
* every call the core makes to an external capability is recorded in a ghost
  trace (`Ev`), which is what the ordering/transaction theorems quantify over.
-/

namespace KindaRepoServer

/-- HTTP method of the incoming request (`ctx.method`); `OTHER` stands for any
verb distinct from the four the dispatcher inspects. -/
inductive HMethod where
  | GET | POST | PUT | DELETE | OTHER
deriving DecidableEq, Repr

/-- Client/remote representation of an item: the decoded JSON value that
`unserializeItem`/`serialize` exchange.  The primary key may be absent (it is
then assigned by the storage layer on create). The remaining property bag is
abstracted as a single `payload`. -/
structure RemoteValue where
  id : Option String
  payload : Nat
deriving DecidableEq, Repr

/-- Storage-side item: identity, class name (`item.class.name`) and property
bag. -/
structure Item where
  id : String
  className : String
  payload : Nat
deriving DecidableEq, Repr

/-- Converting a storage item to its client/remote representation
(`remoteCollection.unserializeItem(item)` / `remoteCollection.createItem(item)`
followed by `serialize()`). -/
def remoteOfItem (it : Item) : RemoteValue :=
  { id := some it.id, payload := it.payload }

/-- Decoded query options (`ctx.options`): the behaviour flags the core itself
inspects, plus an opaque remainder that is passed through to storage calls. -/
structure Options where
  errorIfMissing : Option Bool := none
  createIfMissing : Option Bool := none
  extra : List (String × String) := []
deriving DecidableEq, Repr

/-- Response/request bodies as far as the core distinguishes them. -/
inductive Body where
  /-- `{ class: ..., value: ... }` for a single item. -/
  | itemRep (className : String) (value : RemoteValue)
  /-- list of `{ class: ..., value: ... }` pairs. -/
  | listRep (vs : List (String × RemoteValue))
  | boolVal (b : Bool)
  | natVal (n : Nat)
  | strVal (s : String)
deriving DecidableEq, Repr

/-- Ghost trace of the external calls the core performs, in order. -/
inductive Ev where
  /-- `this.readBody(ctx)` (body parser). -/
  | readBody
  /-- `remoteCollection.unserializeItem(ctx.request.body)`. -/
  | unserialize
  /-- entry into `this._getItem(ctx, id, ...)` with the id it received. -/
  | getItemCall (id : String)
  /-- `ctx.collection.getItem(id, { errorIfMissing: false })`. -/
  | storageGet (id : String)
  /-- `ctx.collection.createItem(remoteItem)`. -/
  | createItem
  /-- invocation of the resolved authorization handler for `method`. -/
  | authorize (method : String)
  /-- `ctx.registeredCollection.emitAsync(event, request)`. -/
  | emit (event : String)
  /-- `item.save(ctx.options)`. -/
  | save (id : String)
  /-- `item.delete(ctx.options)`. -/
  | delete (id : String)
  /-- `ctx.collection.getItems(body, options)`. -/
  | storageGetItems (ids : List String)
  /-- `ctx.collection.findItems(options)`. -/
  | storageFind
  /-- `ctx.collection.countItems(options)`. -/
  | storageCount
  /-- `ctx.collection.findAndDeleteItems(options)`. -/
  | storageFindAndDelete
  /-- `ctx.collection.transaction(...)` entered. -/
  | txBegin
  /-- the transaction body returned normally and the transaction committed. -/
  | txEnd
  /-- boolean-shorthand call `request.collection[method](request.options)`. -/
  | callCollectionMethod (name : String) (opts : Options)
  /-- boolean-shorthand call `request.item[method](request.options)`. -/
  | callItemMethod (name : String) (id : String) (opts : Options)
  /-- `yield next` (pass-through to the external next handler). -/
  | nextHandler
deriving DecidableEq, Repr

/-- Contents of one storage collection.  `nextId` feeds the primary-key
generator used when a created item carries no id. -/
structure Store where
  items : List Item
  nextId : Nat
deriving DecidableEq, Repr

/-- `collection.getItem(id, { errorIfMissing: false })`: first item with the
given primary key, if any. -/
def Store.getItem (s : Store) (id : String) : Option Item :=
  s.items.find? (fun it => it.id == id)

/-- Fresh primary key generated by the storage layer. -/
def genId (n : Nat) : String := "id-" ++ toString n

/-- `collection.createItem(remoteItem)`: instantiate a storage item from the
client representation; the storage layer assigns a fresh primary key when the
source carries none. -/
def Store.createItem (itemClassName : String) (s : Store) (rv : RemoteValue) :
    Item × Store :=
  match rv.id with
  | some i => ({ id := i, className := itemClassName, payload := rv.payload }, s)
  | none =>
      ({ id := genId s.nextId, className := itemClassName, payload := rv.payload },
       { s with nextId := s.nextId + 1 })

/-- `item.save(...)`: insert-or-replace by primary key. -/
def Store.save (s : Store) (it : Item) : Store :=
  { s with items := it :: s.items.filter (fun j => !(j.id == it.id)) }

/-- `item.delete(...)`: remove by primary key, reporting whether anything was
actually removed. -/
def Store.deleteItem (s : Store) (id : String) : Bool × Store :=
  (s.items.any (fun j => j.id == id),
   { s with items := s.items.filter (fun j => !(j.id == id)) })

/-- `collection.getItems(ids, options)`: fetch each id in order, skipping the
missing ones. -/
def Store.getItemsByIds (s : Store) (ids : List String) : List Item :=
  ids.filterMap s.getItem

/-- `item.updateValue(remoteItem)`: merge the incoming values onto the existing
item — the identity (and any server-managed field) is kept. -/
def Item.updateValue (it : Item) (rv : RemoteValue) : Item :=
  { it with payload := rv.payload }

/-- `collection.unserializeItem(remoteItem)` on the storage side (used by the
upsert branch of PUT): build a storage item straight from the client
representation. -/
def unserializeToStorage (itemClassName : String) (rv : RemoteValue) : Item :=
  { id := rv.id.getD "", className := itemClassName, payload := rv.payload }

/-- Uppercase the first character (helper for `camelCase`). -/
def capitalizeWord (s : String) : String :=
  match s.data with
  | [] => ""
  | c :: cs => String.mk (c.toUpper :: cs)

/-- Split a character list at every `'-'` (helper for `camelCase`). -/
def splitDash : List Char → List (List Char)
  | [] => [[]]
  | c :: cs =>
      if c = '-' then [] :: splitDash cs
      else
        match splitDash cs with
        | [] => [[c]]
        | w :: ws => (c :: w) :: ws

/-- Model of lodash `_.camelCase` on its use site (hyphen-separated URL
fragments made of identifier words): drop hyphens and capitalize every word
after the first, so `"count-retired"` becomes `"countRetired"` and a fragment
without hyphens is left unchanged. -/
def camelCase (s : String) : String :=
  match (splitDash s.data).filter (fun w => w ≠ []) with
  | [] => ""
  | w :: ws => String.mk (w ++ (ws.map (fun v => (capitalizeWord (String.mk v)).data)).flatten)

/-- Model of lodash `_.kebabCase` on its use site (camel-cased header names):
insert a hyphen before every uppercase letter and lowercase it, so
`"contentType"` becomes `"content-type"`. -/
def kebabCase (s : String) : String :=
  String.mk (s.data.foldr
    (fun c acc => if c.isUpper then '-' :: c.toLower :: acc else c :: acc) [])

example : camelCase "count-retired" = "countRetired" := by decide
example : camelCase "countRetired" = "countRetired" := by decide
example : camelCase "count" = "count" := by decide
example : kebabCase "contentType" = "content-type" := by decide

/-- An HTTP failure raised with `ctx.throw(status, message)`. -/
structure HttpErr where
  status : Nat
  msg : String
deriving DecidableEq, Repr

/-- Per-request mutable context: the storage collection's contents, the
ghost trace of external calls, and the Koa response fields.  `status` is the
*explicitly assigned* status (Koa's `_explicitStatus`); resolution of the
final wire status happens in `finalizeResponse`. -/
structure St where
  store : Store
  trace : List Ev
  status : Option Nat
  body : Option Body
  headers : List (String × String)
deriving DecidableEq, Repr

/-- The request pipeline: sequential state passing with abort-on-throw.  The
trace survives a throw (the external calls did happen); store rollback is the
business of `inTransaction` alone. -/
def M (α : Type) : Type := St → Except HttpErr α × St

/-- Sequencing of pipeline steps (the `yield` chain of the generators). -/
def M.bind {α β : Type} (x : M α) (f : α → M β) : M β := fun s =>
  match x s with
  | (Except.ok a, s') => f a s'
  | (Except.error e, s') => (Except.error e, s')

def M.pure {α : Type} (a : α) : M α := fun s => (Except.ok a, s)

instance : Monad M where
  pure := M.pure
  bind := M.bind

/-- Record one external call in the ghost trace. -/
def logEv (e : Ev) : M Unit := fun s =>
  (Except.ok (), { s with trace := s.trace ++ [e] })

/-- `ctx.status = n` (explicit status assignment). -/
def setStatus (n : Nat) : M Unit := fun s =>
  (Except.ok (), { s with status := some n })

/-- `ctx.body = b` for a non-null `b`: Koa defaults the status to 200 when no
explicit status has been assigned yet. -/
def setBody (b : Body) : M Unit := fun s =>
  (Except.ok (), { s with body := some b,
                          status := match s.status with
                                    | some n => some n
                                    | none => some 200 })

/-- `ctx.response.set(key, value)`: bind a response header (modelled as an
append; reads take the last binding). -/
def setHeader (k v : String) : M Unit := fun s =>
  (Except.ok (), { s with headers := s.headers ++ [(k, v)] })

/-- `ctx.throw(status, message)`. -/
def throwErr {α : Type} (status : Nat) (msg : String) : M α := fun s =>
  (Except.error ⟨status, msg⟩, s)

/-- `this.readBody(ctx)`: the external body parser (its parse is carried on
the `Request` record). -/
def readBody : M Unit := logEv Ev.readBody

/-- `ctx.collection.getItem(id, { errorIfMissing: false })`. -/
def storageGetItem (id : String) : M (Option Item) := fun s =>
  (Except.ok (s.store.getItem id), { s with trace := s.trace ++ [Ev.storageGet id] })

/-- `ctx.collection.createItem(remoteItem)`. -/
def createItemM (itemClassName : String) (rv : RemoteValue) : M Item := fun s =>
  let ci := Store.createItem itemClassName s.store rv
  (Except.ok ci.1, { s with store := ci.2, trace := s.trace ++ [Ev.createItem] })

/-- `item.save(ctx.options)`. -/
def saveItemM (it : Item) : M Unit := fun s =>
  (Except.ok (), { s with store := s.store.save it, trace := s.trace ++ [Ev.save it.id] })

/-- `item.delete(ctx.options)`, returning whether the delete actually removed
something. -/
def deleteItemM (it : Item) : M Bool := fun s =>
  let d := s.store.deleteItem it.id
  (Except.ok d.1, { s with store := d.2, trace := s.trace ++ [Ev.delete it.id] })

/-- `ctx.collection.getItems(ctx.request.body, ctx.options)`. -/
def storageGetItemsM (ids : List String) : M (List Item) := fun s =>
  (Except.ok (s.store.getItemsByIds ids),
   { s with trace := s.trace ++ [Ev.storageGetItems ids] })

/-- `ctx.collection.findItems(ctx.options)` (query semantics are the storage
layer's; the options bag is opaque pass-through). -/
def storageFindM : M (List Item) := fun s =>
  (Except.ok s.store.items, { s with trace := s.trace ++ [Ev.storageFind] })

/-- `ctx.collection.countItems(ctx.options)`. -/
def storageCountM : M Nat := fun s =>
  (Except.ok s.store.items.length, { s with trace := s.trace ++ [Ev.storageCount] })

/-- `ctx.collection.findAndDeleteItems(ctx.options)`: bulk delete, returning
the number of deleted items. -/
def storageFindAndDeleteM : M Nat := fun s =>
  (Except.ok s.store.items.length,
   { s with store := { s.store with items := [] },
            trace := s.trace ++ [Ev.storageFindAndDelete] })

/-- `ctx.collection.transaction(function *() { ... })`: run the body
atomically; on a throw the attempted mutation is rolled back and the failure
propagates. -/
def inTransaction (body : M Unit) : M Unit := fun s =>
  let s1 : St := { s with trace := s.trace ++ [Ev.txBegin] }
  match body s1 with
  | (Except.ok _, s2) => (Except.ok (), { s2 with trace := s2.trace ++ [Ev.txEnd] })
  | (Except.error e, s2) => (Except.error e, { s2 with store := s.store })

/-- The request descriptor handed to an authorization handler
(`authorizeRequest` copies these fields onto it before invoking the
handler). -/
structure AuthRequest where
  authorization : Option String
  method : String
  options : Options
  item : Option Item
  remoteItem : Option RemoteValue

/-- The extra fields (`{ item }`, `{ remoteItem, item }`, …) a call site of
`authorizeRequest` passes along. -/
structure AuthExtra where
  item : Option Item := none
  remoteItem : Option RemoteValue := none

/-- The request descriptor handed to a user-supplied custom method handler
(`_callCustomMethod` copies options/body/item onto it). -/
structure CustomRequest where
  options : Options
  body : Option Body
  item : Option Item

/-- Result contract of a custom method handler: `{ body?, headers? }`. -/
structure MethodResult where
  body : Option Body
  headers : List (String × String)

/-- A user-supplied custom method handler: external code that may inspect the
request descriptor, interact with storage, throw, and produce a result. -/
def CustomFn : Type := CustomRequest → Store → Except HttpErr MethodResult × Store

/-- A registry entry for a collection/item method: the literal `true`
shorthand, or a handler function. -/
inductive MethodEntry where
  | shorthand
  | handler (f : CustomFn)

/-- A registered collection: per-collection authorization handler and the two
custom-method registries.  (Event listeners live behind the external
`emitAsync` capability and are not inspected by the core.) -/
structure RegisteredCollection where
  name : String
  authorizeHandler : Option (AuthRequest → Bool) := none
  collectionMethods : List (String × MethodEntry) := []
  itemMethods : List (String × MethodEntry) := []

/-- The server-wide configuration the collection handlers consult. -/
structure Server where
  authorizeHandler : Option (AuthRequest → Bool) := none

/-- The storage collection's capabilities that are not uniform CRUD: the item
class name and the oracles answering arbitrary named custom methods
(`request.collection[method](options)` / `request.item[method](options)`). -/
structure CollectionConfig where
  itemClassName : String
  collectionCall : String → Options → Store → Body × Store
  itemCall : String → Item → Options → Store → Body × Store

/-- The decoded inbound request: HTTP method, path remainder after the
collection slug, decoded query options, authorization token, and the parsed
body in each of the three shapes the handlers consume it as (single item for
POST/PUT, id list for bulk get, opaque value for custom methods). -/
structure Request where
  method : HMethod
  path : String
  options : Options := {}
  authorization : Option String := none
  rawBody : RemoteValue := ⟨none, 0⟩
  rawIds : List String := []
  customBody : Body := Body.natVal 0

/-- Handler resolution of `authorizeRequest`: the registered collection's
`authorizeHandler` when present, else the server-wide one. -/
def resolveAuthHandler (srv : Server) (coll : RegisteredCollection) :
    Option (AuthRequest → Bool) :=
  match coll.authorizeHandler with
  | some h => some h
  | none => srv.authorizeHandler

/-- The request descriptor `authorizeRequest` builds before invoking the
resolved handler. -/
def mkAuthRequest (req : Request) (method : String) (extra : AuthExtra) :
    AuthRequest :=
  { authorization := req.authorization, method := method,
    options := req.options, item := extra.item, remoteItem := extra.remoteItem }

/-- `this.authorizeRequest(ctx, method, request)`: resolve the handler
(collection-level first, then server-wide); without a handler the operation is
allowed; a handler returning `false` aborts with 403. -/
def authorizeRequest (srv : Server) (coll : RegisteredCollection)
    (req : Request) (method : String) (extra : AuthExtra) : M Unit :=
  match resolveAuthHandler srv coll with
  | none => pure ()
  | some h => do
      logEv (Ev.authorize method)
      if h (mkAuthRequest req method extra) then pure ()
      else throwErr 403 "authorization failed"

/-- Whether the authorization gate lets `r` through: `true` when no handler is
configured, otherwise the handler's verdict. -/
def authAllows (srv : Server) (coll : RegisteredCollection) (r : AuthRequest) :
    Bool :=
  match resolveAuthHandler srv coll with
  | none => true
  | some h => h r

/-- `this.emitEvent(ctx, event, request)`: broadcast through the collection's
`emitAsync` capability (listeners are external; the emission point is what the
trace records). -/
def emitEvent (event : String) : M Unit := logEv (Ev.emit event)

/-- `this._getItem(ctx, id, errorIfMissing)`: default the missing-item policy
from the argument, else the request options, else `true`; reject an empty id
with 400; fetch with `errorIfMissing: false` at the storage layer; 404 when
the item is absent but required. -/
def getItemHelper (req : Request) (id : String) (errorIfMissing : Option Bool) :
    M (Option Item) := do
  logEv (Ev.getItemCall id)
  let eim := (match errorIfMissing with
              | some b => some b
              | none => req.options.errorIfMissing).getD true
  if id = "" then throwErr 400 "id required"
  else do
    let item ← storageGetItem id
    if item = none ∧ eim then throwErr 404 "item not found"
    else pure item

/-- `this.handleGetItemRequest(ctx, id)`. -/
def handleGetItemRequest (srv : Server) (coll : RegisteredCollection)
    (req : Request) (id : String) : M Unit := do
  let item ← getItemHelper req id none
  authorizeRequest srv coll req "getItem" { item := item }
  emitEvent "didGetItem"
  match item with
  | some it => setBody (Body.itemRep it.className (remoteOfItem it))
  | none => setStatus 204

/-- `this.handlePostItemRequest(ctx)`. -/
def handlePostItemRequest (srv : Server) (coll : RegisteredCollection)
    (cfg : CollectionConfig) (req : Request) : M Unit := do
  readBody
  logEv Ev.unserialize
  let remoteItem := req.rawBody
  inTransaction (do
    let item ← createItemM cfg.itemClassName remoteItem
    authorizeRequest srv coll req "putItem"
      { remoteItem := some remoteItem, item := some item }
    emitEvent "willPutItem"
    saveItemM item
    emitEvent "didPutItem"
    setStatus 201
    setBody (Body.itemRep item.className (remoteOfItem item)))

/-- `this.handlePutItemRequest(ctx, id)`. -/
def handlePutItemRequest (srv : Server) (coll : RegisteredCollection)
    (cfg : CollectionConfig) (req : Request) (id : String) : M Unit := do
  readBody
  logEv Ev.unserialize
  let remoteItem := req.rawBody
  inTransaction (do
    let errorIfMissing : Option Bool :=
      if req.options.createIfMissing = some true then some false else none
    let item0 ← getItemHelper req id errorIfMissing
    authorizeRequest srv coll req "putItem"
      { remoteItem := some remoteItem, item := item0 }
    let item := match item0 with
      | some it => it.updateValue remoteItem
      | none => unserializeToStorage cfg.itemClassName remoteItem
    emitEvent "willPutItem"
    saveItemM item
    emitEvent "didPutItem"
    setStatus 200
    setBody (Body.itemRep item.className (remoteOfItem item)))

/-- `this.handleDeleteItemRequest(ctx, id)`: resolve, authorize, emit the will
event, delete, emit the did event only when the delete removed something, and
report the boolean outcome as the body. -/
def handleDeleteItemRequest (srv : Server) (coll : RegisteredCollection)
    (req : Request) (id : String) : M Unit := do
  let item ← getItemHelper req id none
  let hasBeenDeleted ← (match item with
    | some it => do
        authorizeRequest srv coll req "deleteItem" { item := some it }
        emitEvent "willDeleteItem"
        let hbd ← deleteItemM it
        if hbd then emitEvent "didDeleteItem" else pure ()
        pure hbd
    | none => pure false)
  setBody (Body.boolVal hasBeenDeleted)

/-- `this.handleGetItemsRequest(ctx)` (bulk get by ids). -/
def handleGetItemsRequest (srv : Server) (coll : RegisteredCollection)
    (req : Request) : M Unit := do
  readBody
  authorizeRequest srv coll req "getItems" {}
  let items ← storageGetItemsM req.rawIds
  emitEvent "didGetItems"
  setStatus 201
  setBody (Body.listRep (items.map (fun it => (it.className, remoteOfItem it))))

/-- `this.handleFindItemsRequest(ctx)`. -/
def handleFindItemsRequest (srv : Server) (coll : RegisteredCollection)
    (req : Request) : M Unit := do
  authorizeRequest srv coll req "findItems" {}
  let items ← storageFindM
  emitEvent "didFindItems"
  setStatus 200
  setBody (Body.listRep (items.map (fun it => (it.className, remoteOfItem it))))

/-- `this.handleCountItemsRequest(ctx)`. -/
def handleCountItemsRequest (srv : Server) (coll : RegisteredCollection)
    (req : Request) : M Unit := do
  authorizeRequest srv coll req "countItems" {}
  let count ← storageCountM
  emitEvent "didCountItems"
  setStatus 200
  setBody (Body.natVal count)

/-- `this.handleFindAndDeleteItemsRequest(ctx)`. -/
def handleFindAndDeleteItemsRequest (srv : Server) (coll : RegisteredCollection)
    (req : Request) : M Unit := do
  authorizeRequest srv coll req "findAndDeleteItems" {}
  let deletedItemsCount ← storageFindAndDeleteM
  emitEvent "didFindAndDeleteItems"
  setBody (Body.natVal deletedItemsCount)

/-- `this._callCustomMethod(ctx, fn, request)`: build the request descriptor
and hand control to the external handler (which may touch storage and
throw, but not the core's context). -/
def callCustomFn (f : CustomFn) (req : Request) (item : Option Item) :
    M MethodResult := fun s =>
  let r := f { options := req.options,
               body := if req.method = HMethod.POST then some req.customBody else none,
               item := item } s.store
  match r with
  | (Except.ok res, st') => (Except.ok res, { s with store := st' })
  | (Except.error e, st') => (Except.error e, { s with store := st' })

/-- Boolean-shorthand expansion for a collection method: call the
identically-named method on the storage collection with the decoded options as
its sole argument. -/
def callCollectionMethodM (cfg : CollectionConfig) (name : String)
    (opts : Options) : M Body := fun s =>
  let r := cfg.collectionCall name opts s.store
  (Except.ok r.1, { s with store := r.2,
                           trace := s.trace ++ [Ev.callCollectionMethod name opts] })

/-- Boolean-shorthand expansion for an item method: call the identically-named
method on the resolved item with the decoded options as its sole argument. -/
def callItemMethodM (cfg : CollectionConfig) (name : String) (it : Item)
    (opts : Options) : M Body := fun s =>
  let r := cfg.itemCall name it opts s.store
  (Except.ok r.1, { s with store := r.2,
                           trace := s.trace ++ [Ev.callItemMethod name it.id opts] })

/-- `_.forOwn(result.headers, (value, key) => ctx.response.set(kebabCase key,
value))`: apply every result header under its kebab-cased name, in order. -/
def applyHeaders : List (String × String) → M Unit
  | [] => pure ()
  | (k, v) :: rest => do
      setHeader (kebabCase k) v
      applyHeaders rest

/-- `this._writeCustomMethodResult(ctx, result)`: absent body → 204 and
nothing else; otherwise 201 for POST / 200 otherwise, kebab-cased result
headers, and the result body. -/
def writeCustomMethodResult (req : Request) (result : MethodResult) : M Unit :=
  match result.body with
  | none => setStatus 204
  | some b => do
      setStatus (if req.method = HMethod.POST then 201 else 200)
      applyHeaders result.headers
      setBody b

/-- `this.handleCustomCollectionMethodRequest(ctx, method)`. -/
def handleCustomCollectionMethodRequest (srv : Server)
    (coll : RegisteredCollection) (cfg : CollectionConfig) (req : Request)
    (method : String) : M Unit := do
  if req.method = HMethod.POST then readBody else pure ()
  authorizeRequest srv coll req method {}
  let result ← (match coll.collectionMethods.lookup method with
    | some MethodEntry.shorthand => do
        let b ← callCollectionMethodM cfg method req.options
        pure { body := some b, headers := [] }
    | some (MethodEntry.handler f) => callCustomFn f req none
    | none => throwErr 500 "fn is not a function")
  writeCustomMethodResult req result

/-- `this.handleCustomItemMethodRequest(ctx, id, method)`. -/
def handleCustomItemMethodRequest (srv : Server)
    (coll : RegisteredCollection) (cfg : CollectionConfig) (req : Request)
    (id : String) (method : String) : M Unit := do
  if req.method = HMethod.POST then readBody else pure ()
  let item ← getItemHelper req id none
  authorizeRequest srv coll req method { item := item }
  let result ← (match coll.itemMethods.lookup method with
    | some MethodEntry.shorthand =>
        (match item with
         | some it => do
             let b ← callItemMethodM cfg method it req.options
             pure { body := some b, headers := [] }
         | none => throwErr 500 "cannot call a method of a missing item")
    | some (MethodEntry.handler f) => callCustomFn f req item
    | none => throwErr 500 "fn is not a function")
  writeCustomMethodResult req result

/-- Split a character list at the first `'/'` (`indexOf`/`slice` of the
source); without a `'/'` the second component is empty. -/
def splitFirstSlash : List Char → List Char × List Char
  | [] => ([], [])
  | c :: cs =>
      if c = '/' then ([], cs)
      else
        let r := splitFirstSlash cs
        (c :: r.1, r.2)

/-- The fragment decomposition at the top of `handleCollectionRequest`: strip
a leading `/`, then split at the first remaining `/` into
`(fragment1, fragment2)`; without a `/`, `fragment2` is empty. -/
def splitPath (path : String) : String × String :=
  let l := match path.data with
           | '/' :: rest => rest
           | l => l
  let r := splitFirstSlash l
  (String.mk r.1, String.mk r.2)

example : splitPath "/aaa/get" = ("aaa", "get") := by decide
example : splitPath "/a/b/c" = ("a", "b/c") := by decide
example : splitPath "" = ("", "") := by decide
example : splitPath "/count" = ("count", "") := by decide

/-- The operation the dispatch chain of `handleCollectionRequest` selects. -/
inductive Route where
  | getItems
  | countItems
  | collectionMethod (name : String)
  | itemMethod (id : String) (name : String)
  | getItem (id : String)
  | postItem
  | putItem (id : String)
  | deleteItem (id : String)
  | findItems
  | findAndDeleteItems
  | next
deriving DecidableEq, Repr

/-- The guard chain of `handleCollectionRequest`, line by line: each `else if`
of the source becomes one alternative, in source order; JS string truthiness
(`fragment1`, `!fragment2`) is (non-)emptiness. -/
def selectRoute (coll : RegisteredCollection) (m : HMethod) (f1 f2 : String) :
    Route :=
  if m = HMethod.POST ∧ f1 = "get-items" ∧ f2 = "" then Route.getItems
  else if m = HMethod.GET ∧ f1 = "count" ∧ f2 = "" then Route.countItems
  else if (m = HMethod.GET ∨ m = HMethod.POST) ∧
          (coll.collectionMethods.lookup (camelCase f1)).isSome ∧ f2 = "" then
    Route.collectionMethod (camelCase f1)
  else if (m = HMethod.GET ∨ m = HMethod.POST) ∧ f1 ≠ "" ∧
          (coll.itemMethods.lookup (camelCase f2)).isSome then
    Route.itemMethod f1 (camelCase f2)
  else if m = HMethod.GET ∧ f1 ≠ "" ∧ f2 = "" then Route.getItem f1
  else if m = HMethod.POST ∧ f1 = "" ∧ f2 = "" then Route.postItem
  else if m = HMethod.PUT ∧ f1 ≠ "" ∧ f2 = "" then Route.putItem f1
  else if m = HMethod.DELETE ∧ f1 ≠ "" ∧ f2 = "" then Route.deleteItem f1
  else if m = HMethod.GET ∧ f1 = "" ∧ f2 = "" then Route.findItems
  else if m = HMethod.DELETE ∧ f1 = "" ∧ f2 = "" then Route.findAndDeleteItems
  else Route.next

/-- `this.handleCollectionRequest(ctx, registeredCollection, path, next)`:
decompose the path into fragments and dispatch along the guard chain; an
unmatched `(method, fragments)` pair is handed to the external next
handler. -/
def handleCollectionRequest (srv : Server) (coll : RegisteredCollection)
    (cfg : CollectionConfig) (req : Request) : M Unit :=
  let fs := splitPath req.path
  match selectRoute coll req.method fs.1 fs.2 with
  | Route.getItems => handleGetItemsRequest srv coll req
  | Route.countItems => handleCountItemsRequest srv coll req
  | Route.collectionMethod name =>
      handleCustomCollectionMethodRequest srv coll cfg req name
  | Route.itemMethod id name =>
      handleCustomItemMethodRequest srv coll cfg req id name
  | Route.getItem id => handleGetItemRequest srv coll req id
  | Route.postItem => handlePostItemRequest srv coll cfg req
  | Route.putItem id => handlePutItemRequest srv coll cfg req id
  | Route.deleteItem id => handleDeleteItemRequest srv coll req id
  | Route.findItems => handleFindItemsRequest srv coll req
  | Route.findAndDeleteItems => handleFindAndDeleteItemsRequest srv coll req
  | Route.next => logEv Ev.nextHandler

/-- The pristine per-request context over a given storage state. -/
def initSt (store : Store) : St :=
  { store := store, trace := [], status := none, body := none, headers := [] }

/-- Run a collection request from a pristine context. -/
def runCollection (srv : Server) (coll : RegisteredCollection)
    (cfg : CollectionConfig) (req : Request) (store : Store) :
    Except HttpErr Unit × St :=
  handleCollectionRequest srv coll cfg req (initSt store)

/-- The wire response: a thrown HTTP error becomes its status; otherwise the
explicit status, defaulting per Koa to 200 when a body was assigned and 404
when nothing was. -/
structure Response where
  status : Nat
  body : Option Body
  headers : List (String × String)
deriving DecidableEq, Repr

def finalizeResponse : Except HttpErr Unit × St → Response
  | (Except.ok _, s) =>
      { status := s.status.getD 404, body := s.body, headers := s.headers }
  | (Except.error e, s) =>
      { status := e.status, body := none, headers := s.headers }

/-! ## Unfolding lemmas for the pipeline monad -/

theorem M.bind_eq {α β : Type} (x : M α) (f : α → M β) : x >>= f = M.bind x f := rfl

theorem M.pure_eq {α : Type} (a : α) : (pure a : M α) = M.pure a := rfl

theorem M.bind_apply {α β : Type} (x : M α) (f : α → M β) (s : St) :
    M.bind x f s =
      match x s with
      | (Except.ok a, s') => f a s'
      | (Except.error e, s') => (Except.error e, s') := rfl

theorem M.pure_apply {α : Type} (a : α) (s : St) :
    (pure a : M α) s = (Except.ok a, s) := rfl

/-- Shared concrete material for witnesses: a server-wide token check. -/
def srvW : Server := { authorizeHandler := some (fun r => r.authorization == some "tok") }

/-- Shared concrete material for witnesses: a server with authorization
disabled. -/
def srvOpen : Server := { }

/-- Shared concrete material for witnesses: a plain collection with a
boolean-shorthand collection method `countRetired` and item method `touch`. -/
def collW : RegisteredCollection :=
  { name := "Users",
    collectionMethods := [("countRetired", MethodEntry.shorthand)],
    itemMethods := [("touch", MethodEntry.shorthand)] }

/-- Shared concrete material for witnesses: storage custom-method oracles. -/
def cfgW : CollectionConfig :=
  { itemClassName := "User",
    collectionCall := fun _ _ s => (Body.natVal 7, s),
    itemCall := fun _ it _ s => (Body.natVal it.payload, s) }

/-- Shared concrete material for witnesses: one stored item `aaa`. -/
def storeW : Store := { items := [⟨"aaa", "User", 20⟩], nextId := 0 }

/-! ## C6: the authorization gate -/

/-- C6: For every operation passing through the authorization gate, the gate
resolves the registered collection's `authorizeHandler` when present, else the
server-wide one; with no handler at all the operation is always allowed (no
failure, no state change); and when the resolved handler returns `false` the
request fails with a 403 failure, whatever operation name triggered it. -/
theorem C6_authorization_gate (srv : Server) (coll : RegisteredCollection)
    (req : Request) (method : String) (extra : AuthExtra) (st : St) :
    (∀ h, coll.authorizeHandler = some h →
      authorizeRequest srv coll req method extra st =
        (if h (mkAuthRequest req method extra) then
          (Except.ok (), { st with trace := st.trace ++ [Ev.authorize method] })
         else
          (Except.error ⟨403, "authorization failed"⟩,
           { st with trace := st.trace ++ [Ev.authorize method] })))
    ∧ (coll.authorizeHandler = none → ∀ h, srv.authorizeHandler = some h →
      authorizeRequest srv coll req method extra st =
        (if h (mkAuthRequest req method extra) then
          (Except.ok (), { st with trace := st.trace ++ [Ev.authorize method] })
         else
          (Except.error ⟨403, "authorization failed"⟩,
           { st with trace := st.trace ++ [Ev.authorize method] })))
    ∧ (coll.authorizeHandler = none → srv.authorizeHandler = none →
      authorizeRequest srv coll req method extra st = (Except.ok (), st)) := by
  refine ⟨?_, ?_, ?_⟩
  · intro h hh
    unfold authorizeRequest resolveAuthHandler
    rw [hh]
    by_cases hc : h (mkAuthRequest req method extra)
    · simp only [hc, if_true, M.bind_eq, M.bind_apply, logEv]
      rfl
    · simp only [hc, if_false, Bool.false_eq_true, M.bind_eq, M.bind_apply, logEv,
        throwErr]
  · intro hc h hs
    unfold authorizeRequest resolveAuthHandler
    rw [hc, hs]
    by_cases hb : h (mkAuthRequest req method extra)
    · simp only [hb, if_true, M.bind_eq, M.bind_apply, logEv]
      rfl
    · simp only [hb, if_false, Bool.false_eq_true, M.bind_eq, M.bind_apply, logEv,
        throwErr]
  · intro hc hs
    unfold authorizeRequest resolveAuthHandler
    rw [hc, hs]
    rfl

/-- A request carrying a token the witness server rejects. -/
def reqBadTok : Request :=
  { method := HMethod.GET, path := "", authorization := some "bad" }

/-- Concrete instantiation of `C6_authorization_gate`: the server-wide handler
is consulted when the collection declares none, and a rejected token yields
the 403 failure. -/
theorem C6_authorization_gate_witness :
    authorizeRequest srvW collW reqBadTok "getItem" {} (initSt storeW) =
      (Except.error ⟨403, "authorization failed"⟩,
       { initSt storeW with trace := [Ev.authorize "getItem"] }) := by
  have := (C6_authorization_gate srvW collW reqBadTok "getItem" {}
    (initSt storeW)).2.1 rfl (fun r => r.authorization == some "tok") rfl
  simpa using this

/-! ## C8: writing a custom-method result -/

/-- Running the header loop appends every result header under its kebab-cased
name, in order. -/
theorem applyHeaders_run (hs : List (String × String)) (st : St) :
    applyHeaders hs st =
      (Except.ok (),
       { st with headers := st.headers ++ hs.map (fun kv => (kebabCase kv.1, kv.2)) }) := by
  induction hs generalizing st with
  | nil =>
      simp only [applyHeaders, List.map_nil, List.append_nil]
      rfl
  | cons kv rest ih =>
      simp only [applyHeaders, M.bind_eq, M.bind_apply, setHeader, ih, List.map_cons,
        List.append_assoc, List.singleton_append]

/-- C8: writing a custom-method result sets status 204 and touches nothing
else when the result body is absent; otherwise it sets status 201 for POST and
200 for any other verb, applies every result header under its kebab-cased
name, and sets the result body. -/
theorem C8_write_custom_result (req : Request) (result : MethodResult) (st : St) :
    (result.body = none →
      writeCustomMethodResult req result st =
        (Except.ok (), { st with status := some 204 }))
    ∧ (∀ b, result.body = some b →
      writeCustomMethodResult req result st =
        (Except.ok (),
         { st with
           status := some (if req.method = HMethod.POST then 201 else 200),
           headers := st.headers ++ result.headers.map (fun kv => (kebabCase kv.1, kv.2)),
           body := some b })) := by
  constructor
  · intro hb
    simp only [writeCustomMethodResult, hb, setStatus]
  · intro b hb
    simp only [writeCustomMethodResult, hb, M.bind_eq, M.bind_apply, setStatus,
      applyHeaders_run, setBody]

/-- Concrete instantiation of `C8_write_custom_result`: a POST result with a
body and a camel-cased header comes back as 201 with the header applied under
its hyphenated name. -/
theorem C8_write_custom_result_witness :
    writeCustomMethodResult { method := HMethod.POST, path := "" }
        { body := some (Body.strVal "Hello"),
          headers := [("contentType", "text/plain")] } (initSt storeW) =
      (Except.ok (),
       { initSt storeW with
         status := some 201,
         headers := [("content-type", "text/plain")],
         body := some (Body.strVal "Hello") }) := by
  have := (C8_write_custom_result { method := HMethod.POST, path := "" }
    { body := some (Body.strVal "Hello"), headers := [("contentType", "text/plain")] }
    (initSt storeW)).2 (Body.strVal "Hello") rfl
  simpa using this

/-! ## C4: the ordered route table -/

/-- One guarded rule of the dispatch table: a decidable guard over the
`(collection, method, fragment1, fragment2)` tuple and the operation it
selects. -/
structure RouteRule where
  guard : RegisteredCollection → HMethod → String → String → Bool
  target : String → String → Route

/-- First-match-wins evaluation of an ordered list of guarded rules; no match
falls through to the external next handler. -/
def firstMatchRoute : List RouteRule → RegisteredCollection → HMethod → String →
    String → Route
  | [], _, _, _, _ => Route.next
  | r :: rest, coll, m, f1, f2 =>
      if r.guard coll m f1 f2 then r.target f1 f2
      else firstMatchRoute rest coll m f1 f2

/-- The dispatch table of `handleCollectionRequest` as an ordered guard list,
in source order. -/
def routeRules : List RouteRule :=
  [ ⟨fun _ m f1 f2 => decide (m = HMethod.POST ∧ f1 = "get-items" ∧ f2 = ""),
     fun _ _ => Route.getItems⟩,
    ⟨fun _ m f1 f2 => decide (m = HMethod.GET ∧ f1 = "count" ∧ f2 = ""),
     fun _ _ => Route.countItems⟩,
    ⟨fun coll m f1 f2 => decide ((m = HMethod.GET ∨ m = HMethod.POST) ∧
        (coll.collectionMethods.lookup (camelCase f1)).isSome ∧ f2 = ""),
     fun f1 _ => Route.collectionMethod (camelCase f1)⟩,
    ⟨fun coll m f1 f2 => decide ((m = HMethod.GET ∨ m = HMethod.POST) ∧ f1 ≠ "" ∧
        (coll.itemMethods.lookup (camelCase f2)).isSome),
     fun f1 f2 => Route.itemMethod f1 (camelCase f2)⟩,
    ⟨fun _ m f1 f2 => decide (m = HMethod.GET ∧ f1 ≠ "" ∧ f2 = ""),
     fun f1 _ => Route.getItem f1⟩,
    ⟨fun _ m f1 f2 => decide (m = HMethod.POST ∧ f1 = "" ∧ f2 = ""),
     fun _ _ => Route.postItem⟩,
    ⟨fun _ m f1 f2 => decide (m = HMethod.PUT ∧ f1 ≠ "" ∧ f2 = ""),
     fun f1 _ => Route.putItem f1⟩,
    ⟨fun _ m f1 f2 => decide (m = HMethod.DELETE ∧ f1 ≠ "" ∧ f2 = ""),
     fun f1 _ => Route.deleteItem f1⟩,
    ⟨fun _ m f1 f2 => decide (m = HMethod.GET ∧ f1 = "" ∧ f2 = ""),
     fun _ _ => Route.findItems⟩,
    ⟨fun _ m f1 f2 => decide (m = HMethod.DELETE ∧ f1 = "" ∧ f2 = ""),
     fun _ _ => Route.findAndDeleteItems⟩ ]

/-- C4: route selection inside a matched collection is first-match-wins over
the ordered guard list (bulk get, count, custom collection method, custom item
method, get item, create, update, delete, find, find-and-delete); a GET with
`fragment1 = "count"` and no `fragment2` always selects the count operation;
and a pair matching no rule is handed to the external next handler without an
error. -/
theorem C4_route_table :
    (∀ (coll : RegisteredCollection) (m : HMethod) (f1 f2 : String),
      selectRoute coll m f1 f2 = firstMatchRoute routeRules coll m f1 f2)
    ∧ (∀ (coll : RegisteredCollection),
      selectRoute coll HMethod.GET "count" "" = Route.countItems)
    ∧ (∀ (srv : Server) (coll : RegisteredCollection) (cfg : CollectionConfig)
        (req : Request) (store : Store),
      selectRoute coll req.method (splitPath req.path).1 (splitPath req.path).2 =
          Route.next →
      handleCollectionRequest srv coll cfg req (initSt store) =
        (Except.ok (), { initSt store with trace := [Ev.nextHandler] })) := by
  refine ⟨?_, ?_, ?_⟩
  · intro coll m f1 f2
    simp only [selectRoute, firstMatchRoute, routeRules, decide_eq_true_eq]
  · intro coll
    unfold selectRoute
    rw [if_neg (by decide), if_pos (by decide)]
  · intro srv coll cfg req store h
    simp only [handleCollectionRequest, h, logEv]
    rfl

/-- Concrete instantiation of `C4_route_table`: a PATCH-like verb matches no
rule and is handed to the next handler. -/
theorem C4_route_table_witness :
    handleCollectionRequest srvW collW cfgW { method := HMethod.OTHER, path := "/aaa" }
        (initSt storeW) =
      (Except.ok (), { initSt storeW with trace := [Ev.nextHandler] }) :=
  C4_route_table.2.2 srvW collW cfgW { method := HMethod.OTHER, path := "/aaa" }
    storeW (by decide)

/-! ## Run lemmas for the symbolic evaluation of handlers -/

/-- The trace the authorization gate leaves behind: one handler invocation
when a handler is resolved, nothing otherwise. -/
def authTrace (srv : Server) (coll : RegisteredCollection) (method : String) :
    List Ev :=
  match resolveAuthHandler srv coll with
  | none => []
  | some _ => [Ev.authorize method]

/-- When the gate lets the request through, `authorizeRequest` succeeds and
only extends the trace. -/
theorem authorizeRequest_allow (srv : Server) (coll : RegisteredCollection)
    (req : Request) (method : String) (extra : AuthExtra) (st : St)
    (h : authAllows srv coll (mkAuthRequest req method extra) = true) :
    authorizeRequest srv coll req method extra st =
      (Except.ok (), { st with trace := st.trace ++ authTrace srv coll method }) := by
  unfold authorizeRequest authTrace
  unfold authAllows at h
  cases hr : resolveAuthHandler srv coll with
  | none =>
      simp only [List.append_nil]
      rfl
  | some hd =>
      rw [hr] at h
      change hd (mkAuthRequest req method extra) = true at h
      simp only [M.bind_eq, M.bind_apply, logEv, h, if_true]
      rfl

/-- Running `_getItem` on a non-empty id: one `getItemCall` plus one storage
fetch; a missing-but-required item aborts with 404, anything else returns the
storage answer. -/
theorem getItemHelper_run (req : Request) (id : String) (eim : Option Bool)
    (st : St) (hid : ¬(id = "")) :
    getItemHelper req id eim st =
      (if st.store.getItem id = none ∧
          ((match eim with
            | some b => some b
            | none => req.options.errorIfMissing).getD true) then
        (Except.error ⟨404, "item not found"⟩,
         { st with trace := st.trace ++ [Ev.getItemCall id, Ev.storageGet id] })
       else
        (Except.ok (st.store.getItem id),
         { st with trace := st.trace ++ [Ev.getItemCall id, Ev.storageGet id] })) := by
  unfold getItemHelper
  simp only [M.bind_eq, M.bind_apply, logEv, storageGetItem, if_neg hid,
    List.append_assoc, List.singleton_append, List.cons_append, List.nil_append]
  split
  · rfl
  · rfl

/-- Evaluation of the gate once the handler is resolved: the trace records the
invocation, and the verdict decides between success and the 403 failure. -/
theorem authorizeRequest_resolved (srv : Server) (coll : RegisteredCollection)
    (h : AuthRequest → Bool) (hh : resolveAuthHandler srv coll = some h)
    (req : Request) (method : String) (extra : AuthExtra) (st : St) :
    authorizeRequest srv coll req method extra st =
      (if h (mkAuthRequest req method extra) then
        (Except.ok (), { st with trace := st.trace ++ [Ev.authorize method] })
       else
        (Except.error ⟨403, "authorization failed"⟩,
         { st with trace := st.trace ++ [Ev.authorize method] })) := by
  unfold authorizeRequest
  rw [hh]
  by_cases hc : h (mkAuthRequest req method extra)
  · simp only [hc, if_true, M.bind_eq, M.bind_apply, logEv]
    rfl
  · simp only [hc, if_false, Bool.false_eq_true, M.bind_eq, M.bind_apply, logEv,
      throwErr]

/-- Without any configured handler the gate is a no-op. -/
theorem authorizeRequest_none (srv : Server) (coll : RegisteredCollection)
    (hh : resolveAuthHandler srv coll = none) (req : Request) (method : String)
    (extra : AuthExtra) (st : St) :
    authorizeRequest srv coll req method extra st = (Except.ok (), st) := by
  unfold authorizeRequest
  rw [hh]
  rfl

/-! ## C3: the missing-item policy of GET single item -/

/-- C3: a GET on an id absent from storage fails with 404 when
`errorIfMissing` was not passed or passed as `true`, and succeeds as a 204
with empty body when the request passed `errorIfMissing = false` (and the
gate allows it); a GET on a stored item responds 200 with the item's
serialized client representation as body (when the gate allows it). -/
theorem C3_get_item_missing_policy (srv : Server) (coll : RegisteredCollection)
    (req : Request) (id : String) (store : Store) (hid : ¬(id = "")) :
    (store.getItem id = none →
      ((req.options.errorIfMissing = none ∨ req.options.errorIfMissing = some true →
        (handleGetItemRequest srv coll req id (initSt store)).1 =
          Except.error ⟨404, "item not found"⟩)
      ∧ (req.options.errorIfMissing = some false →
          authAllows srv coll (mkAuthRequest req "getItem" { item := none }) = true →
          finalizeResponse (handleGetItemRequest srv coll req id (initSt store)) =
            { status := 204, body := none, headers := [] })))
    ∧ (∀ it, store.getItem id = some it →
        authAllows srv coll (mkAuthRequest req "getItem" { item := some it }) = true →
        finalizeResponse (handleGetItemRequest srv coll req id (initSt store)) =
          { status := 200,
            body := some (Body.itemRep it.className (remoteOfItem it)),
            headers := [] }) := by
  constructor
  · intro hnone
    constructor
    · intro heim
      unfold handleGetItemRequest
      simp only [M.bind_eq, M.bind_apply]
      rw [getItemHelper_run req id none (initSt store) hid]
      rcases heim with h | h <;> simp [initSt, hnone, h]
    · intro heim hauth
      unfold handleGetItemRequest
      simp only [M.bind_eq, M.bind_apply]
      rw [getItemHelper_run req id none (initSt store) hid]
      simp only [initSt, hnone, heim, Option.getD_some, Bool.false_eq_true, and_false,
        if_false]
      rw [authorizeRequest_allow srv coll req "getItem" { item := none } _ hauth]
      simp [emitEvent, logEv, setStatus, finalizeResponse]
  · intro it hit hauth
    unfold handleGetItemRequest
    simp only [M.bind_eq, M.bind_apply]
    rw [getItemHelper_run req id none (initSt store) hid]
    simp only [initSt, hit, reduceCtorEq, false_and, if_false]
    rw [authorizeRequest_allow srv coll req "getItem" { item := some it } _ hauth]
    simp [emitEvent, logEv, setBody, finalizeResponse]

/-- Concrete instantiation of `C3_get_item_missing_policy`: looking up a
missing id under the default policy fails with 404. -/
theorem C3_get_item_missing_policy_witness :
    (handleGetItemRequest srvOpen collW { method := HMethod.GET, path := "/xyz" }
        "xyz" (initSt storeW)).1 = Except.error ⟨404, "item not found"⟩ :=
  ((C3_get_item_missing_policy srvOpen collW
      { method := HMethod.GET, path := "/xyz" } "xyz" storeW (by decide)).1
    (by decide)).1 (Or.inl rfl)

/-! ## C1: the create-item pipeline and its ordering -/

/-- Full evaluation of `handlePostItemRequest` once the authorization handler
is resolved: the verdict on the candidate item decides between the complete
committed pipeline and the aborted, rolled-back one. -/
theorem handlePost_run (srv : Server) (coll : RegisteredCollection)
    (h : AuthRequest → Bool) (hh : resolveAuthHandler srv coll = some h)
    (cfg : CollectionConfig) (req : Request) (store : Store) :
    handlePostItemRequest srv coll cfg req (initSt store) =
      (let ci := Store.createItem cfg.itemClassName store req.rawBody
       if h (mkAuthRequest req "putItem"
              { item := some ci.1, remoteItem := some req.rawBody }) then
        (Except.ok (),
         { store := ci.2.save ci.1,
           trace := [Ev.readBody, Ev.unserialize, Ev.txBegin, Ev.createItem,
             Ev.authorize "putItem", Ev.emit "willPutItem", Ev.save ci.1.id,
             Ev.emit "didPutItem", Ev.txEnd],
           status := some 201,
           body := some (Body.itemRep ci.1.className (remoteOfItem ci.1)),
           headers := [] })
       else
        (Except.error ⟨403, "authorization failed"⟩,
         { store := store,
           trace := [Ev.readBody, Ev.unserialize, Ev.txBegin, Ev.createItem,
             Ev.authorize "putItem"],
           status := none, body := none, headers := [] })) := by
  unfold handlePostItemRequest
  simp only [M.bind_eq, M.bind_apply, readBody, logEv, initSt, inTransaction,
    createItemM, authorizeRequest_resolved srv coll h hh]
  by_cases hc : h (mkAuthRequest req "putItem"
      { item := some (Store.createItem cfg.itemClassName store req.rawBody).1,
        remoteItem := some req.rawBody })
  · simp only [hc, if_true, emitEvent, logEv, saveItemM, setStatus, setBody,
      M.bind_eq, M.bind_apply, List.append_assoc, List.singleton_append,
      List.cons_append, List.nil_append]
  · simp only [hc, if_false, Bool.false_eq_true, List.append_assoc,
      List.singleton_append, List.cons_append, List.nil_append]

/-- C1: on POST create-item the external calls happen in exactly the order
read-body, construct candidate (unserialize then storage `createItem`),
authorization handler, `willPutItem`, `save`, `didPutItem`; and a handler
verdict of `false` fails the request with 403 before `willPutItem`, `save`
or `didPutItem` happen (the trace stops at the authorization call and the
store is left untouched). -/
theorem C1_post_pipeline_order (srv : Server) (coll : RegisteredCollection)
    (h : AuthRequest → Bool) (hh : resolveAuthHandler srv coll = some h)
    (cfg : CollectionConfig) (req : Request) (store : Store) :
    (h (mkAuthRequest req "putItem"
          { item := some (Store.createItem cfg.itemClassName store req.rawBody).1,
            remoteItem := some req.rawBody }) = true →
      handlePostItemRequest srv coll cfg req (initSt store) =
        (Except.ok (),
         { store := (Store.createItem cfg.itemClassName store req.rawBody).2.save
             (Store.createItem cfg.itemClassName store req.rawBody).1,
           trace := [Ev.readBody, Ev.unserialize, Ev.txBegin, Ev.createItem,
             Ev.authorize "putItem", Ev.emit "willPutItem",
             Ev.save (Store.createItem cfg.itemClassName store req.rawBody).1.id,
             Ev.emit "didPutItem", Ev.txEnd],
           status := some 201,
           body := some (Body.itemRep
             (Store.createItem cfg.itemClassName store req.rawBody).1.className
             (remoteOfItem (Store.createItem cfg.itemClassName store req.rawBody).1)),
           headers := [] }))
    ∧ (h (mkAuthRequest req "putItem"
          { item := some (Store.createItem cfg.itemClassName store req.rawBody).1,
            remoteItem := some req.rawBody }) = false →
      handlePostItemRequest srv coll cfg req (initSt store) =
        (Except.error ⟨403, "authorization failed"⟩,
         { store := store,
           trace := [Ev.readBody, Ev.unserialize, Ev.txBegin, Ev.createItem,
             Ev.authorize "putItem"],
           status := none, body := none, headers := [] })) := by
  constructor
  · intro hc
    rw [handlePost_run srv coll h hh cfg req store]
    simp only [hc, if_true]
  · intro hc
    rw [handlePost_run srv coll h hh cfg req store]
    simp only [hc, Bool.false_eq_true, if_false]

/-- The POST request used by witnesses: an authorized create of a fresh
value. -/
def reqPostW : Request :=
  { method := HMethod.POST, path := "", authorization := some "tok",
    rawBody := ⟨none, 42⟩ }

/-- The POST request used by witnesses: a create carrying a rejected token. -/
def reqPostBad : Request :=
  { method := HMethod.POST, path := "", authorization := some "bad",
    rawBody := ⟨none, 42⟩ }

/-- Concrete instantiation of `C1_post_pipeline_order`: the rejected token
aborts the create with 403 after the authorization call and before any
will-event, save or did-event. -/
theorem C1_post_pipeline_order_witness :
    handlePostItemRequest srvW collW cfgW reqPostBad (initSt storeW) =
      (Except.error ⟨403, "authorization failed"⟩,
       { store := storeW,
         trace := [Ev.readBody, Ev.unserialize, Ev.txBegin, Ev.createItem,
           Ev.authorize "putItem"],
         status := none, body := none, headers := [] }) :=
  (C1_post_pipeline_order srvW collW (fun r => r.authorization == some "tok") rfl
    cfgW reqPostBad storeW).2 (by decide)

/-! ## C2: transaction boundaries around mutations -/

/-- Full evaluation of `handlePutItemRequest` on an id whose item exists, once
the authorization handler is resolved. -/
theorem handlePut_run_found (srv : Server) (coll : RegisteredCollection)
    (h : AuthRequest → Bool) (hh : resolveAuthHandler srv coll = some h)
    (cfg : CollectionConfig) (req : Request) (store : Store) (id : String)
    (it : Item) (hid : ¬(id = "")) (hit : store.getItem id = some it) :
    handlePutItemRequest srv coll cfg req id (initSt store) =
      (if h (mkAuthRequest req "putItem"
              { item := some it, remoteItem := some req.rawBody }) then
        (Except.ok (),
         { store := store.save (it.updateValue req.rawBody),
           trace := [Ev.readBody, Ev.unserialize, Ev.txBegin, Ev.getItemCall id,
             Ev.storageGet id, Ev.authorize "putItem", Ev.emit "willPutItem",
             Ev.save (it.updateValue req.rawBody).id, Ev.emit "didPutItem",
             Ev.txEnd],
           status := some 200,
           body := some (Body.itemRep (it.updateValue req.rawBody).className
             (remoteOfItem (it.updateValue req.rawBody))),
           headers := [] })
       else
        (Except.error ⟨403, "authorization failed"⟩,
         { store := store,
           trace := [Ev.readBody, Ev.unserialize, Ev.txBegin, Ev.getItemCall id,
             Ev.storageGet id, Ev.authorize "putItem"],
           status := none, body := none, headers := [] })) := by
  unfold handlePutItemRequest
  simp only [M.bind_eq, M.bind_apply, readBody, logEv, initSt, inTransaction]
  rw [getItemHelper_run req id _ _ hid]
  simp only [hit, reduceCtorEq, false_and, if_false,
    authorizeRequest_resolved srv coll h hh]
  by_cases hc : h (mkAuthRequest req "putItem"
      { item := some it, remoteItem := some req.rawBody })
  · simp only [hc, if_true, emitEvent, logEv, saveItemM, setStatus, setBody,
      M.bind_eq, M.bind_apply, List.append_assoc, List.singleton_append,
      List.cons_append, List.nil_append]
  · simp only [hc, if_false, Bool.false_eq_true, List.append_assoc,
      List.singleton_append, List.cons_append, List.nil_append]

/-- `x` appends only events satisfying `p` to the trace. -/
def TraceCond (p : Ev → Prop) {α : Type} (x : M α) : Prop :=
  ∀ (st : St) (e : Ev), e ∈ (x st).2.trace → e ∈ st.trace ∨ p e

theorem TraceCond.bind {p : Ev → Prop} {α β : Type} {x : M α} {f : α → M β}
    (hx : TraceCond p x) (hf : ∀ a, TraceCond p (f a)) :
    TraceCond p (x >>= f) := by
  intro st e he
  rw [M.bind_eq] at he
  unfold M.bind at he
  cases hxs : x st with
  | mk r s' =>
      rw [hxs] at he
      cases r with
      | ok a =>
          rcases hf a s' e he with h | h
          · exact hx st e (by rw [hxs]; exact h)
          · exact Or.inr h
      | error err => exact hx st e (by rw [hxs]; exact he)

theorem TraceCond.of_pure (p : Ev → Prop) {α : Type} (a : α) :
    TraceCond p (pure a : M α) := fun _ _ he => Or.inl he

theorem TraceCond.noTrace (p : Ev → Prop) {α : Type} {x : M α}
    (hx : ∀ st, (x st).2.trace = st.trace) : TraceCond p x := by
  intro st e he
  rw [hx st] at he
  exact Or.inl he

theorem TraceCond.appendOne (p : Ev → Prop) {α : Type} {x : M α} (ev : Ev)
    (hx : ∀ st, (x st).2.trace = st.trace ++ [ev]) (hp : p ev) :
    TraceCond p x := by
  intro st e he
  rw [hx st] at he
  rcases List.mem_append.1 he with h | h
  · exact Or.inl h
  · rw [List.mem_singleton.1 h]
    exact Or.inr hp

theorem authorizeRequest_traceCond (p : Ev → Prop) (srv : Server)
    (coll : RegisteredCollection) (req : Request) (method : String)
    (extra : AuthExtra) (hp : p (Ev.authorize method)) :
    TraceCond p (authorizeRequest srv coll req method extra) := by
  unfold KindaRepoServer.authorizeRequest
  cases resolveAuthHandler srv coll with
  | none => exact TraceCond.of_pure p ()
  | some h =>
      refine TraceCond.bind (TraceCond.appendOne p _ (fun st => rfl) hp) ?_
      intro _
      split
      · exact TraceCond.of_pure p ()
      · exact TraceCond.noTrace p (fun st => rfl)

theorem getItemHelper_traceCond (p : Ev → Prop) (req : Request) (id : String)
    (eim : Option Bool) (h1 : p (Ev.getItemCall id)) (h2 : p (Ev.storageGet id)) :
    TraceCond p (getItemHelper req id eim) := by
  intro st e he
  by_cases hid : id = ""
  · have htr : (getItemHelper req id eim st).2.trace = st.trace ++ [Ev.getItemCall id] := by
      unfold KindaRepoServer.getItemHelper
      simp [M.bind_eq, M.bind_apply, logEv, hid, throwErr]
    rw [htr] at he
    rcases List.mem_append.1 he with h | h
    · exact Or.inl h
    · rw [List.mem_singleton.1 h]
      exact Or.inr h1
  · rw [getItemHelper_run req id eim st hid] at he
    split at he <;>
    · simp only at he
      rcases List.mem_append.1 he with h | h
      · exact Or.inl h
      · rcases List.mem_cons.1 h with h' | h'
        · rw [h']
          exact Or.inr h1
        · rw [List.mem_singleton.1 h']
          exact Or.inr h2

/-- The delete-item handler can only add item-resolution, authorization,
event-emission and storage-delete events to the trace — in particular it never
enters a transaction. -/
theorem handleDeleteItemRequest_traceCond (p : Ev → Prop) (srv : Server)
    (coll : RegisteredCollection) (req : Request) (id : String)
    (h1 : p (Ev.getItemCall id)) (h2 : p (Ev.storageGet id))
    (h3 : ∀ m, p (Ev.authorize m)) (h4 : ∀ ev, p (Ev.emit ev))
    (h5 : ∀ i, p (Ev.delete i)) :
    TraceCond p (KindaRepoServer.handleDeleteItemRequest srv coll req id) := by
  unfold KindaRepoServer.handleDeleteItemRequest
  refine TraceCond.bind (getItemHelper_traceCond p req id none h1 h2) ?_
  intro item
  refine TraceCond.bind ?_ ?_
  · cases item with
    | none => exact TraceCond.of_pure p false
    | some it =>
        refine TraceCond.bind
          (authorizeRequest_traceCond p srv coll req "deleteItem" _ (h3 _)) ?_
        intro _
        refine TraceCond.bind
          (TraceCond.appendOne p (Ev.emit "willDeleteItem") (fun st => rfl) (h4 _)) ?_
        intro _
        refine TraceCond.bind
          (TraceCond.appendOne p (Ev.delete it.id) (fun st => rfl) (h5 _)) ?_
        intro hbd
        cases hbd with
        | true =>
            exact TraceCond.bind
              (TraceCond.appendOne p (Ev.emit "didDeleteItem") (fun st => rfl) (h4 _))
              (fun _ => TraceCond.of_pure p true)
        | false =>
            exact TraceCond.bind (TraceCond.of_pure p ())
              (fun _ => TraceCond.of_pure p false)
  · intro hbd
    exact TraceCond.noTrace p (fun st => rfl)

/-- The DELETE request used by the C2 counterexample and witnesses. -/
def reqDelW : Request :=
  { method := HMethod.DELETE, path := "/aaa", authorization := some "tok" }

/-- Counterexample to C2 as stated: a dispatched DELETE delete-item request
that authorizes, emits both events and actually deletes, while the trace shows
the storage transaction capability was never entered. -/
theorem C2_counterexample_delete_outside_transaction :
    (runCollection srvW collW cfgW reqDelW storeW).2.trace =
      [Ev.getItemCall "aaa", Ev.storageGet "aaa", Ev.authorize "deleteItem",
       Ev.emit "willDeleteItem", Ev.delete "aaa", Ev.emit "didDeleteItem"] ∧
    Ev.delete "aaa" ∈ (runCollection srvW collW cfgW reqDelW storeW).2.trace ∧
    Ev.txBegin ∉ (runCollection srvW collW cfgW reqDelW storeW).2.trace := by
  refine ⟨by decide, by decide, by decide⟩

/-- C2 (amended): POST create-item and PUT update-item run their whole
authorize / will-event / persist / did-event sequence inside exactly one
transaction boundary (`txBegin` … `txEnd`), but DELETE delete-item runs its
sequence with no transaction at all. -/
theorem C2_transaction_boundary (srv : Server) (coll : RegisteredCollection)
    (h : AuthRequest → Bool) (hh : resolveAuthHandler srv coll = some h)
    (cfg : CollectionConfig) (req : Request) (store : Store) (id : String)
    (it : Item) (hid : ¬(id = "")) (hit : store.getItem id = some it) :
    (h (mkAuthRequest req "putItem"
          { item := some (Store.createItem cfg.itemClassName store req.rawBody).1,
            remoteItem := some req.rawBody }) = true →
      (handlePostItemRequest srv coll cfg req (initSt store)).2.trace =
        [Ev.readBody, Ev.unserialize] ++ [Ev.txBegin] ++
          [Ev.createItem, Ev.authorize "putItem", Ev.emit "willPutItem",
           Ev.save (Store.createItem cfg.itemClassName store req.rawBody).1.id,
           Ev.emit "didPutItem"] ++ [Ev.txEnd])
    ∧ (h (mkAuthRequest req "putItem"
          { item := some it, remoteItem := some req.rawBody }) = true →
      (handlePutItemRequest srv coll cfg req id (initSt store)).2.trace =
        [Ev.readBody, Ev.unserialize] ++ [Ev.txBegin] ++
          [Ev.getItemCall id, Ev.storageGet id, Ev.authorize "putItem",
           Ev.emit "willPutItem", Ev.save (it.updateValue req.rawBody).id,
           Ev.emit "didPutItem"] ++ [Ev.txEnd])
    ∧ Ev.txBegin ∉
        (handleDeleteItemRequest srv coll req id (initSt store)).2.trace := by
  refine ⟨?_, ?_, ?_⟩
  · intro hc
    rw [handlePost_run srv coll h hh cfg req store]
    simp [hc]
  · intro hc
    rw [handlePut_run_found srv coll h hh cfg req store id it hid hit]
    simp [hc]
  · intro hmem
    have := handleDeleteItemRequest_traceCond (fun e => e ≠ Ev.txBegin) srv coll
      req id (fun hx => Ev.noConfusion hx) (fun hx => Ev.noConfusion hx)
      (fun m hx => Ev.noConfusion hx) (fun ev hx => Ev.noConfusion hx)
      (fun i hx => Ev.noConfusion hx) (initSt store) Ev.txBegin hmem
    rcases this with h' | h'
    · exact absurd h' (List.not_mem_nil Ev.txBegin)
    · exact h' rfl

/-- Concrete instantiation of `C2_transaction_boundary`: the authorized create
of `reqPostW` runs its whole sequence between `txBegin` and `txEnd`, and the
delete of item `aaa` never enters a transaction. -/
theorem C2_transaction_boundary_witness :
    (handlePostItemRequest srvW collW cfgW reqPostW (initSt storeW)).2.trace =
      [Ev.readBody, Ev.unserialize] ++ [Ev.txBegin] ++
        [Ev.createItem, Ev.authorize "putItem", Ev.emit "willPutItem",
         Ev.save "id-0", Ev.emit "didPutItem"] ++ [Ev.txEnd] ∧
    Ev.txBegin ∉
      (handleDeleteItemRequest srvW collW reqDelW "aaa" (initSt storeW)).2.trace := by
  have hthm := C2_transaction_boundary srvW collW
    (fun r => r.authorization == some "tok") rfl cfgW reqPostW storeW "aaa"
    ⟨"aaa", "User", 20⟩ (by decide) (by decide)
  exact ⟨hthm.1 (by decide), (C2_transaction_boundary srvW collW
    (fun r => r.authorization == some "tok") rfl cfgW reqDelW storeW "aaa"
    ⟨"aaa", "User", 20⟩ (by decide) (by decide)).2.2⟩

/-! ## C7: boolean-shorthand custom methods -/

/-- `authorizeRequest_allow` with the verdict hypothesis before the state, so
it rewrites uniformly in every state. -/
theorem authorizeRequest_allowed (srv : Server) (coll : RegisteredCollection)
    (req : Request) (method : String) (extra : AuthExtra)
    (h : authAllows srv coll (mkAuthRequest req method extra) = true) (st : St) :
    authorizeRequest srv coll req method extra st =
      (Except.ok (), { st with trace := st.trace ++ authTrace srv coll method }) :=
  authorizeRequest_allow srv coll req method extra st h

/-- C7: a custom collection (resp. item) method whose registry entry is the
literal `true` calls the identically-named method on the storage collection
(resp. on the resolved item) with exactly the decoded query options as its
sole argument, and the returned value, wrapped as `{ body: returnValue }`,
becomes the response body — for GET and POST alike (POST reads the raw body
first, GET never does), whenever the authorization gate lets the operation
through. -/
theorem C7_shorthand_custom_methods (srv : Server) (coll : RegisteredCollection)
    (cfg : CollectionConfig) (req : Request) (store : Store) (name : String)
    (id : String) (it : Item)
    (hm : req.method = HMethod.GET ∨ req.method = HMethod.POST) :
    (coll.collectionMethods.lookup name = some MethodEntry.shorthand →
      authAllows srv coll (mkAuthRequest req name {}) = true →
      handleCustomCollectionMethodRequest srv coll cfg req name (initSt store) =
        (Except.ok (),
         { store := (cfg.collectionCall name req.options store).2,
           trace := (if req.method = HMethod.POST then [Ev.readBody] else []) ++
             authTrace srv coll name ++ [Ev.callCollectionMethod name req.options],
           status := some (if req.method = HMethod.POST then 201 else 200),
           body := some (cfg.collectionCall name req.options store).1,
           headers := [] }))
    ∧ (coll.itemMethods.lookup name = some MethodEntry.shorthand →
       authAllows srv coll (mkAuthRequest req name { item := some it }) = true →
       ¬(id = "") → store.getItem id = some it →
      handleCustomItemMethodRequest srv coll cfg req id name (initSt store) =
        (Except.ok (),
         { store := (cfg.itemCall name it req.options store).2,
           trace := (if req.method = HMethod.POST then [Ev.readBody] else []) ++
             [Ev.getItemCall id, Ev.storageGet id] ++ authTrace srv coll name ++
             [Ev.callItemMethod name it.id req.options],
           status := some (if req.method = HMethod.POST then 201 else 200),
           body := some (cfg.itemCall name it req.options store).1,
           headers := [] })) := by
  constructor
  · intro hcm hauth
    rcases hm with hv | hv
    · unfold handleCustomCollectionMethodRequest
      simp only [M.bind_eq, M.bind_apply, M.pure_apply, hv, reduceCtorEq,
        if_false, initSt, authorizeRequest_allowed srv coll req name {} hauth,
        hcm, callCollectionMethodM, writeCustomMethodResult, applyHeaders,
        setStatus, setBody, List.nil_append, List.append_assoc,
        List.singleton_append, List.cons_append]
      dsimp only [Pure.pure, M.pure]
      try simp only [M.bind_eq, M.bind_apply, M.pure_apply, setStatus,
        applyHeaders, setBody, hv, reduceCtorEq, if_false, eq_self_iff_true,
        if_true, List.append_assoc, List.singleton_append, List.cons_append,
        List.nil_append]
      try dsimp only [Pure.pure, M.pure]
      try rfl
    · unfold handleCustomCollectionMethodRequest
      simp only [M.bind_eq, M.bind_apply, M.pure_apply, hv, eq_self_iff_true,
        if_true, readBody, logEv, initSt,
        authorizeRequest_allowed srv coll req name {} hauth, hcm,
        callCollectionMethodM, writeCustomMethodResult, applyHeaders,
        setStatus, setBody, List.nil_append, List.append_assoc,
        List.singleton_append, List.cons_append]
      dsimp only [Pure.pure, M.pure]
      try simp only [M.bind_eq, M.bind_apply, M.pure_apply, setStatus,
        applyHeaders, setBody, hv, reduceCtorEq, if_false, eq_self_iff_true,
        if_true, List.append_assoc, List.singleton_append, List.cons_append,
        List.nil_append]
      try dsimp only [Pure.pure, M.pure]
      try rfl
  · intro him hauth hid hit
    rcases hm with hv | hv
    · unfold handleCustomItemMethodRequest
      simp only [M.bind_eq, M.bind_apply, M.pure_apply, hv, reduceCtorEq,
        if_false]
      dsimp only [Pure.pure, M.pure]
      rw [getItemHelper_run req id _ _ hid]
      simp only [initSt, hit, reduceCtorEq, false_and, if_false,
        authorizeRequest_allowed srv coll req name { item := some it } hauth,
        him, callItemMethodM, writeCustomMethodResult, applyHeaders, setStatus,
        setBody, M.bind_eq, M.bind_apply, M.pure_apply, List.nil_append,
        List.append_assoc, List.singleton_append, List.cons_append]
      dsimp only [Pure.pure, M.pure]
      try simp only [M.bind_eq, M.bind_apply, M.pure_apply, setStatus,
        applyHeaders, setBody, hv, reduceCtorEq, if_false, eq_self_iff_true,
        if_true, List.append_assoc, List.singleton_append, List.cons_append,
        List.nil_append]
      try dsimp only [Pure.pure, M.pure]
      try rfl
    · unfold handleCustomItemMethodRequest
      simp only [M.bind_eq, M.bind_apply, M.pure_apply, hv, eq_self_iff_true,
        if_true, readBody, logEv]
      dsimp only [Pure.pure, M.pure]
      rw [getItemHelper_run req id _ _ hid]
      simp only [initSt, hit, reduceCtorEq, false_and, if_false,
        authorizeRequest_allowed srv coll req name { item := some it } hauth,
        him, callItemMethodM, writeCustomMethodResult, applyHeaders, setStatus,
        setBody, M.bind_eq, M.bind_apply, M.pure_apply, List.nil_append,
        List.append_assoc, List.singleton_append, List.cons_append]
      dsimp only [Pure.pure, M.pure]
      try simp only [M.bind_eq, M.bind_apply, M.pure_apply, setStatus,
        applyHeaders, setBody, hv, reduceCtorEq, if_false, eq_self_iff_true,
        if_true, List.append_assoc, List.singleton_append, List.cons_append,
        List.nil_append]
      try dsimp only [Pure.pure, M.pure]
      try rfl

/-- The POST custom-method request used by the C7 witness: a shorthand call on
the token-gated witness server. -/
def reqPostCustom : Request :=
  { method := HMethod.POST, path := "/count-retired", authorization := some "tok" }

/-- The GET item-method request used by the C7 witness. -/
def reqGetTouch : Request :=
  { method := HMethod.GET, path := "/aaa/touch", authorization := some "tok" }

/-- Concrete instantiation of `C7_shorthand_custom_methods`: on the token-gated
server, a POST shorthand collection method reads the body, passes the gate,
forwards the decoded options to the same-named storage method and answers 201
with its value; a GET shorthand item method resolves the item and answers 200
with the item call's value. -/
theorem C7_shorthand_custom_methods_witness :
    (handleCustomCollectionMethodRequest srvW collW cfgW reqPostCustom
        "countRetired" (initSt storeW) =
      (Except.ok (),
       { store := storeW,
         trace := [Ev.readBody, Ev.authorize "countRetired",
           Ev.callCollectionMethod "countRetired" reqPostCustom.options],
         status := some 201, body := some (Body.natVal 7), headers := [] }))
    ∧ (handleCustomItemMethodRequest srvW collW cfgW reqGetTouch "aaa" "touch"
        (initSt storeW) =
      (Except.ok (),
       { store := storeW,
         trace := [Ev.getItemCall "aaa", Ev.storageGet "aaa",
           Ev.authorize "touch",
           Ev.callItemMethod "touch" "aaa" reqGetTouch.options],
         status := some 200, body := some (Body.natVal 20), headers := [] })) := by
  constructor
  · have := (C7_shorthand_custom_methods srvW collW cfgW reqPostCustom storeW
      "countRetired" "aaa" ⟨"aaa", "User", 20⟩ (Or.inr rfl)).1 rfl (by decide)
    simpa using this
  · have := (C7_shorthand_custom_methods srvW collW cfgW reqGetTouch storeW
      "touch" "aaa" ⟨"aaa", "User", 20⟩ (Or.inl rfl)).2 rfl (by decide)
      (by decide) (by decide)
    simpa using this

/-! ## C9: camel-casing of method-name fragments -/

set_option maxHeartbeats 1600000 in
/-- C9: the dispatcher matches custom-method registries against the
camel-cased path fragments — every selected collection-method name is the
camel-cased `fragment1`, every selected item-method name is the camel-cased
`fragment2`, and a method registered as `countRetired` is selected by the URL
fragment `count-retired`. -/
theorem C9_camel_cased_fragments :
    camelCase "count-retired" = "countRetired"
    ∧ (∀ (coll : RegisteredCollection) (m : HMethod) (f1 f2 name : String),
        selectRoute coll m f1 f2 = Route.collectionMethod name →
        name = camelCase f1 ∧ (coll.collectionMethods.lookup (camelCase f1)).isSome)
    ∧ (∀ (coll : RegisteredCollection) (m : HMethod) (f1 f2 id name : String),
        selectRoute coll m f1 f2 = Route.itemMethod id name →
        name = camelCase f2 ∧ (coll.itemMethods.lookup (camelCase f2)).isSome)
    ∧ (∀ (coll : RegisteredCollection) (m : HMethod),
        m = HMethod.GET ∨ m = HMethod.POST →
        (coll.collectionMethods.lookup "countRetired").isSome →
        selectRoute coll m "count-retired" "" =
          Route.collectionMethod "countRetired") := by
  refine ⟨by decide, ?_, ?_, ?_⟩
  · intro coll m f1 f2 name h
    unfold selectRoute at h
    split_ifs at h with h1 h2 h3 h4 h5 h6 h7 h8 h9 h10 <;>
      first
        | exact Route.noConfusion h
        | (injection h with hn; exact ⟨hn.symm, h3.2.1⟩)
  · intro coll m f1 f2 id name h
    unfold selectRoute at h
    split_ifs at h with h1 h2 h3 h4 h5 h6 h7 h8 h9 h10 <;>
      first
        | exact Route.noConfusion h
        | (injection h with hi hn; exact ⟨hn.symm, h4.2.2⟩)
  · intro coll m hm hreg
    unfold selectRoute
    have hcc : camelCase "count-retired" = "countRetired" := by decide
    rw [hcc]
    rw [if_neg (by rintro ⟨-, hx, -⟩; exact absurd hx (by decide)),
      if_neg (by rintro ⟨-, hx, -⟩; exact absurd hx (by decide)),
      if_pos ⟨hm, hreg, rfl⟩]

/-- Concrete instantiation of `C9_camel_cased_fragments`: the collection
`collW` registers `countRetired`, and a GET on fragment `count-retired`
selects it. -/
theorem C9_camel_cased_fragments_witness :
    selectRoute collW HMethod.GET "count-retired" "" =
      Route.collectionMethod "countRetired" :=
  C9_camel_cased_fragments.2.2.2 collW HMethod.GET (Or.inl rfl) (by decide)

/-! ## C5: the create / get / delete / get round trip -/

theorem Store.getItem_save (s : Store) (it : Item) :
    (s.save it).getItem it.id = some it := by
  unfold Store.save Store.getItem
  exact List.find?_cons_of_pos _ (by simp)

theorem find?_beq_filter_out (l : List Item) (id : String) :
    (l.filter (fun j => !(j.id == id))).find? (fun j => j.id == id) = none := by
  induction l with
  | nil => rfl
  | cons a l ih =>
      by_cases h : (a.id == id) = true
      · simp [List.filter_cons, h, ih]
      · simp [List.filter_cons, h, List.find?_cons, ih]

theorem Store.getItem_delete_self (s : Store) (id : String) :
    ((s.deleteItem id).2).getItem id = none := by
  unfold Store.deleteItem Store.getItem
  exact find?_beq_filter_out s.items id

theorem Store.any_of_getItem (s : Store) (id : String) (it : Item)
    (h : s.getItem id = some it) : s.items.any (fun j => j.id == id) = true := by
  unfold Store.getItem at h
  have hp := List.find?_some h
  have hm := List.mem_of_find?_eq_some h
  exact List.any_eq_true.2 ⟨it, hm, hp⟩

theorem id_eq_of_getItem (s : Store) (id : String) (it : Item)
    (h : s.getItem id = some it) : it.id = id := by
  unfold Store.getItem at h
  have hp := List.find?_some h
  exact eq_of_beq hp

theorem genId_ne_empty (n : Nat) : ¬(genId n = "") := by
  unfold genId
  intro h
  have hlen := congrArg String.length h
  rw [String.length_append] at hlen
  have h3 : "id-".length = 3 := rfl
  have h0 : "".length = 0 := rfl
  rw [h3, h0] at hlen
  omega

/-- Full evaluation of `handlePostItemRequest` with authorization disabled. -/
theorem handlePost_run_noauth (srv : Server) (coll : RegisteredCollection)
    (hnoauth : resolveAuthHandler srv coll = none) (cfg : CollectionConfig)
    (req : Request) (store : Store) :
    handlePostItemRequest srv coll cfg req (initSt store) =
      (Except.ok (),
       { store := (Store.createItem cfg.itemClassName store req.rawBody).2.save
           (Store.createItem cfg.itemClassName store req.rawBody).1,
         trace := [Ev.readBody, Ev.unserialize, Ev.txBegin, Ev.createItem,
           Ev.emit "willPutItem",
           Ev.save (Store.createItem cfg.itemClassName store req.rawBody).1.id,
           Ev.emit "didPutItem", Ev.txEnd],
         status := some 201,
         body := some (Body.itemRep
           (Store.createItem cfg.itemClassName store req.rawBody).1.className
           (remoteOfItem (Store.createItem cfg.itemClassName store req.rawBody).1)),
         headers := [] }) := by
  unfold handlePostItemRequest
  simp only [M.bind_eq, M.bind_apply, readBody, logEv, initSt, inTransaction,
    createItemM, authorizeRequest_none srv coll hnoauth, emitEvent, saveItemM,
    setStatus, setBody, List.append_assoc, List.singleton_append,
    List.cons_append, List.nil_append]

/-- Full evaluation of `handleGetItemRequest` on a stored item with
authorization disabled. -/
theorem handleGet_run_found_noauth (srv : Server) (coll : RegisteredCollection)
    (hnoauth : resolveAuthHandler srv coll = none) (req : Request) (id : String)
    (it : Item) (store : Store) (hid : ¬(id = ""))
    (hit : store.getItem id = some it) :
    handleGetItemRequest srv coll req id (initSt store) =
      (Except.ok (),
       { store := store,
         trace := [Ev.getItemCall id, Ev.storageGet id, Ev.emit "didGetItem"],
         status := some 200,
         body := some (Body.itemRep it.className (remoteOfItem it)),
         headers := [] }) := by
  unfold handleGetItemRequest
  simp only [M.bind_eq, M.bind_apply]
  rw [getItemHelper_run req id _ _ hid]
  simp only [initSt, hit, reduceCtorEq, false_and, if_false,
    authorizeRequest_none srv coll hnoauth, emitEvent, logEv, setBody,
    M.bind_eq, M.bind_apply, List.append_assoc, List.singleton_append,
    List.cons_append, List.nil_append]

/-- Full evaluation of `handleGetItemRequest` on a missing id under
`errorIfMissing = false` with authorization disabled. -/
theorem handleGet_run_missing_opt_noauth (srv : Server)
    (coll : RegisteredCollection) (hnoauth : resolveAuthHandler srv coll = none)
    (req : Request) (id : String) (store : Store) (hid : ¬(id = ""))
    (hnone : store.getItem id = none)
    (heim : req.options.errorIfMissing = some false) :
    handleGetItemRequest srv coll req id (initSt store) =
      (Except.ok (),
       { store := store,
         trace := [Ev.getItemCall id, Ev.storageGet id, Ev.emit "didGetItem"],
         status := some 204, body := none, headers := [] }) := by
  unfold handleGetItemRequest
  simp only [M.bind_eq, M.bind_apply]
  rw [getItemHelper_run req id _ _ hid]
  simp only [initSt, hnone, heim, Option.getD_some, Bool.false_eq_true, and_false,
    if_false, authorizeRequest_none srv coll hnoauth, emitEvent, logEv, setStatus,
    M.bind_eq, M.bind_apply, List.append_assoc, List.singleton_append,
    List.cons_append, List.nil_append]

/-- Full evaluation of `handleDeleteItemRequest` on a stored item with
authorization disabled: the item is removed, both delete events fire, and the
body reports `true`. -/
theorem handleDelete_run_found_noauth (srv : Server)
    (coll : RegisteredCollection) (hnoauth : resolveAuthHandler srv coll = none)
    (req : Request) (id : String) (it : Item) (store : Store)
    (hid : ¬(id = "")) (hit : store.getItem id = some it) :
    handleDeleteItemRequest srv coll req id (initSt store) =
      (Except.ok (),
       { store := (store.deleteItem it.id).2,
         trace := [Ev.getItemCall id, Ev.storageGet id, Ev.emit "willDeleteItem",
           Ev.delete it.id, Ev.emit "didDeleteItem"],
         status := some 200, body := some (Body.boolVal true),
         headers := [] }) := by
  have hbd : store.items.any (fun j => j.id == it.id) = true := by
    rw [id_eq_of_getItem store id it hit]
    exact Store.any_of_getItem store id it hit
  unfold handleDeleteItemRequest
  simp only [M.bind_eq, M.bind_apply]
  rw [getItemHelper_run req id _ _ hid]
  simp only [initSt, hit, reduceCtorEq, false_and, if_false,
    authorizeRequest_none srv coll hnoauth, emitEvent, logEv, deleteItemM,
    Store.deleteItem, M.bind_eq, M.bind_apply, M.pure_apply, hbd, if_true,
    setBody, List.append_assoc, List.singleton_append, List.cons_append,
    List.nil_append]
  rfl

/-- The POST step of the round-trip scenario. -/
def c5post (rv : RemoteValue) : Request :=
  { method := HMethod.POST, path := "", rawBody := rv }

/-- The plain GET step of the round-trip scenario. -/
def c5get : Request := { method := HMethod.GET, path := "" }

/-- The DELETE step of the round-trip scenario. -/
def c5del : Request := { method := HMethod.DELETE, path := "" }

/-- The final GET step, carrying `errorIfMissing = false`. -/
def c5getOpt : Request :=
  { method := HMethod.GET, path := "", options := { errorIfMissing := some false } }

/-- The item the storage layer creates for a fresh (id-less) value. -/
def c5item (cfg : CollectionConfig) (store : Store) (rv : RemoteValue) : Item :=
  ⟨genId store.nextId, cfg.itemClassName, rv.payload⟩

/-- The storage contents right after the create step. -/
def c5store1 (cfg : CollectionConfig) (store : Store) (rv : RemoteValue) : Store :=
  (⟨store.items, store.nextId + 1⟩ : Store).save (c5item cfg store rv)

/-- The storage contents right after the delete step. -/
def c5store2 (cfg : CollectionConfig) (store : Store) (rv : RemoteValue) : Store :=
  ((c5store1 cfg store rv).deleteItem (genId store.nextId)).2

/-- Requests for the dispatched counterexample scenario. -/
def c5reqPost : Request := { method := HMethod.POST, path := "", rawBody := ⟨none, 42⟩ }

def c5reqGet : Request := { method := HMethod.GET, path := "/id-0" }

def c5reqDel : Request := { method := HMethod.DELETE, path := "/id-0" }

def c5reqGetOpt : Request :=
  { method := HMethod.GET, path := "/id-0", options := { errorIfMissing := some false } }

def c5emptyStore : Store := { items := [], nextId := 0 }

def c5run1 : Except HttpErr Unit × St :=
  runCollection srvOpen collW cfgW c5reqPost c5emptyStore

def c5run2 : Except HttpErr Unit × St :=
  runCollection srvOpen collW cfgW c5reqGet c5run1.2.store

def c5run3 : Except HttpErr Unit × St :=
  runCollection srvOpen collW cfgW c5reqDel c5run2.2.store

def c5run4 : Except HttpErr Unit × St :=
  runCollection srvOpen collW cfgW c5reqGetOpt c5run3.2.store

/-- The four response statuses of the dispatched POST / GET / DELETE /
GET-with-`errorIfMissing:false` scenario. -/
def c5statuses : List Nat :=
  [(finalizeResponse c5run1).status, (finalizeResponse c5run2).status,
   (finalizeResponse c5run3).status, (finalizeResponse c5run4).status]

/-- Counterexample to C5 as stated: the dispatched round trip yields statuses
201, 200, 200, 204 — the DELETE answers 200 with body `true` (the boolean
success flag), not 204 — so the claimed sequence 201, 200, 204, 204 is wrong
at the third step. -/
theorem C5_counterexample_delete_status :
    c5statuses = [201, 200, 200, 204] ∧
    ¬(c5statuses = [201, 200, 204, 204]) ∧
    (finalizeResponse c5run3).body = some (Body.boolVal true) ∧
    (finalizeResponse c5run4).body = none := by
  refine ⟨by decide, by decide, by decide, by decide⟩

/-- C5 (amended): for every collection with authorization disabled and every
fresh (id-less) value, POST then GET then DELETE then
GET-with-`errorIfMissing:false` yields 201 (echo of the created value with
the server-assigned id), 200 (same value), 200 with body `true` (the boolean
success flag of the delete), and 204 with empty body, in that order. -/
theorem C5_crud_round_trip (srv : Server) (coll : RegisteredCollection)
    (cfg : CollectionConfig) (store : Store) (rv : RemoteValue)
    (hnoauth : resolveAuthHandler srv coll = none) (hfresh : rv.id = none) :
    ((handlePostItemRequest srv coll cfg (c5post rv) (initSt store)).2.store =
      c5store1 cfg store rv
    ∧ finalizeResponse (handlePostItemRequest srv coll cfg (c5post rv) (initSt store)) =
      { status := 201,
        body := some (Body.itemRep cfg.itemClassName ⟨some (genId store.nextId), rv.payload⟩),
        headers := [] })
    ∧ (finalizeResponse (handleGetItemRequest srv coll c5get (genId store.nextId)
          (initSt (c5store1 cfg store rv))) =
        { status := 200,
          body := some (Body.itemRep cfg.itemClassName ⟨some (genId store.nextId), rv.payload⟩),
          headers := [] }
      ∧ (handleGetItemRequest srv coll c5get (genId store.nextId)
          (initSt (c5store1 cfg store rv))).2.store = c5store1 cfg store rv)
    ∧ (finalizeResponse (handleDeleteItemRequest srv coll c5del (genId store.nextId)
          (initSt (c5store1 cfg store rv))) =
        { status := 200, body := some (Body.boolVal true), headers := [] }
      ∧ (handleDeleteItemRequest srv coll c5del (genId store.nextId)
          (initSt (c5store1 cfg store rv))).2.store = c5store2 cfg store rv)
    ∧ finalizeResponse (handleGetItemRequest srv coll c5getOpt (genId store.nextId)
        (initSt (c5store2 cfg store rv))) =
      { status := 204, body := none, headers := [] } := by
  have hid := genId_ne_empty store.nextId
  have hci : Store.createItem cfg.itemClassName store (c5post rv).rawBody =
      (c5item cfg store rv, (⟨store.items, store.nextId + 1⟩ : Store)) := by
    unfold Store.createItem c5post c5item
    rw [hfresh]
  have hit1 : (c5store1 cfg store rv).getItem (genId store.nextId) =
      some (c5item cfg store rv) :=
    Store.getItem_save (⟨store.items, store.nextId + 1⟩ : Store) (c5item cfg store rv)
  have hnone2 : (c5store2 cfg store rv).getItem (genId store.nextId) = none :=
    Store.getItem_delete_self (c5store1 cfg store rv) (genId store.nextId)
  refine ⟨⟨?_, ?_⟩, ⟨?_, ?_⟩, ⟨?_, ?_⟩, ?_⟩
  · rw [handlePost_run_noauth srv coll hnoauth cfg (c5post rv) store, hci]
    rfl
  · rw [handlePost_run_noauth srv coll hnoauth cfg (c5post rv) store, hci]
    rfl
  · rw [handleGet_run_found_noauth srv coll hnoauth c5get (genId store.nextId)
      (c5item cfg store rv) (c5store1 cfg store rv) hid hit1]
    rfl
  · rw [handleGet_run_found_noauth srv coll hnoauth c5get (genId store.nextId)
      (c5item cfg store rv) (c5store1 cfg store rv) hid hit1]
  · rw [handleDelete_run_found_noauth srv coll hnoauth c5del (genId store.nextId)
      (c5item cfg store rv) (c5store1 cfg store rv) hid hit1]
    rfl
  · rw [handleDelete_run_found_noauth srv coll hnoauth c5del (genId store.nextId)
      (c5item cfg store rv) (c5store1 cfg store rv) hid hit1]
    rfl
  · rw [handleGet_run_missing_opt_noauth srv coll hnoauth c5getOpt
      (genId store.nextId) (c5store2 cfg store rv) hid hnone2 rfl]
    rfl

/-- Concrete instantiation of `C5_crud_round_trip` on the open witness server
and an empty store. -/
theorem C5_crud_round_trip_witness :
    finalizeResponse (handlePostItemRequest srvOpen collW cfgW (c5post ⟨none, 42⟩)
        (initSt c5emptyStore)) =
      { status := 201, body := some (Body.itemRep "User" ⟨some "id-0", 42⟩),
        headers := [] } ∧
    finalizeResponse (handleDeleteItemRequest srvOpen collW c5del "id-0"
        (initSt (c5store1 cfgW c5emptyStore ⟨none, 42⟩))) =
      { status := 200, body := some (Body.boolVal true), headers := [] } := by
  have h := C5_crud_round_trip srvOpen collW cfgW c5emptyStore ⟨none, 42⟩ rfl rfl
  exact ⟨by simpa using h.1.2, by simpa using h.2.2.1.1⟩

/-! ## C10: the 400 branch of the item-resolution helper is unreachable -/

/-- The property C10 tracks: an event is either not an item-resolution call,
or it carries a non-empty id. -/
def noEmptyGetItem (e : Ev) : Prop := ∀ i, e = Ev.getItemCall i → ¬(i = "")

theorem TraceCond.inTransaction (p : Ev → Prop) {body : M Unit}
    (hb : TraceCond p body) (h1 : p Ev.txBegin) (h2 : p Ev.txEnd) :
    TraceCond p (KindaRepoServer.inTransaction body) := by
  intro st e he
  have hItr : KindaRepoServer.inTransaction body st =
      (match body { st with trace := st.trace ++ [Ev.txBegin] } with
       | (Except.ok _, s2) =>
          (Except.ok (), { s2 with trace := s2.trace ++ [Ev.txEnd] })
       | (Except.error err, s2) => (Except.error err, { s2 with store := st.store })) :=
    rfl
  rw [hItr] at he
  cases hbs : body { st with trace := st.trace ++ [Ev.txBegin] } with
  | mk r s2 =>
      rw [hbs] at he
      have hsub : e ∈ s2.trace → e ∈ st.trace ∨ p e := by
        intro hx
        have := hb { st with trace := st.trace ++ [Ev.txBegin] } e (by rw [hbs]; exact hx)
        rcases this with hy | hy
        · rcases List.mem_append.1 hy with hz | hz
          · exact Or.inl hz
          · rw [List.mem_singleton.1 hz]
            exact Or.inr h1
        · exact Or.inr hy
      cases r with
      | ok a =>
          rcases List.mem_append.1 he with hx | hx
          · exact hsub hx
          · rw [List.mem_singleton.1 hx]
            exact Or.inr h2
      | error err => exact hsub he

theorem callCustomFn_trace (f : CustomFn) (req : Request) (item : Option Item)
    (st : St) : ((callCustomFn f req item) st).2.trace = st.trace := by
  have h : (callCustomFn f req item) st =
      (match f { options := req.options,
                 body := if req.method = HMethod.POST then some req.customBody else none,
                 item := item } st.store with
       | (Except.ok res, st2) => (Except.ok res, { st with store := st2 })
       | (Except.error e, st2) => (Except.error e, { st with store := st2 })) := rfl
  rw [h]
  split <;> rfl

theorem applyHeaders_trace (hs : List (String × String)) (st : St) :
    (applyHeaders hs st).2.trace = st.trace := by
  rw [applyHeaders_run]

theorem writeCustomMethodResult_traceCond (p : Ev → Prop) (req : Request)
    (result : MethodResult) :
    TraceCond p (writeCustomMethodResult req result) := by
  unfold writeCustomMethodResult
  cases result.body with
  | none => exact TraceCond.noTrace p (fun st => rfl)
  | some b =>
      refine TraceCond.bind (TraceCond.noTrace p (fun st => rfl)) ?_
      intro _
      refine TraceCond.bind (TraceCond.noTrace p (applyHeaders_trace result.headers)) ?_
      intro _
      exact TraceCond.noTrace p (fun st => rfl)

theorem handleGetItemRequest_noEmpty (srv : Server) (coll : RegisteredCollection)
    (req : Request) (id : String) (hid : ¬(id = "")) :
    TraceCond noEmptyGetItem (handleGetItemRequest srv coll req id) := by
  unfold handleGetItemRequest
  refine TraceCond.bind (getItemHelper_traceCond _ req id none
    (fun i hx => by cases hx; exact hid) (fun i hx => Ev.noConfusion hx)) ?_
  intro item
  refine TraceCond.bind (authorizeRequest_traceCond _ srv coll req "getItem" _
    (fun i hx => Ev.noConfusion hx)) ?_
  intro _
  refine TraceCond.bind (TraceCond.appendOne _ (Ev.emit "didGetItem")
    (fun st => rfl) (fun i hx => Ev.noConfusion hx)) ?_
  intro _
  cases item with
  | some it => exact TraceCond.noTrace _ (fun st => rfl)
  | none => exact TraceCond.noTrace _ (fun st => rfl)

theorem handlePostItemRequest_noEmpty (srv : Server)
    (coll : RegisteredCollection) (cfg : CollectionConfig) (req : Request) :
    TraceCond noEmptyGetItem (handlePostItemRequest srv coll cfg req) := by
  unfold handlePostItemRequest
  refine TraceCond.bind (TraceCond.appendOne _ Ev.readBody (fun st => rfl)
    (fun i hx => Ev.noConfusion hx)) ?_
  intro _
  refine TraceCond.bind (TraceCond.appendOne _ Ev.unserialize (fun st => rfl)
    (fun i hx => Ev.noConfusion hx)) ?_
  intro _
  refine TraceCond.inTransaction _ ?_ (fun i hx => Ev.noConfusion hx)
    (fun i hx => Ev.noConfusion hx)
  refine TraceCond.bind (TraceCond.appendOne _ Ev.createItem (fun st => rfl)
    (fun i hx => Ev.noConfusion hx)) ?_
  intro item
  refine TraceCond.bind (authorizeRequest_traceCond _ srv coll req "putItem" _
    (fun i hx => Ev.noConfusion hx)) ?_
  intro _
  refine TraceCond.bind (TraceCond.appendOne _ (Ev.emit "willPutItem")
    (fun st => rfl) (fun i hx => Ev.noConfusion hx)) ?_
  intro _
  refine TraceCond.bind (TraceCond.appendOne _ (Ev.save item.id) (fun st => rfl)
    (fun i hx => Ev.noConfusion hx)) ?_
  intro _
  refine TraceCond.bind (TraceCond.appendOne _ (Ev.emit "didPutItem")
    (fun st => rfl) (fun i hx => Ev.noConfusion hx)) ?_
  intro _
  refine TraceCond.bind (TraceCond.noTrace _ (fun st => rfl)) ?_
  intro _
  exact TraceCond.noTrace _ (fun st => rfl)

theorem handlePutItemRequest_noEmpty (srv : Server)
    (coll : RegisteredCollection) (cfg : CollectionConfig) (req : Request)
    (id : String) (hid : ¬(id = "")) :
    TraceCond noEmptyGetItem (handlePutItemRequest srv coll cfg req id) := by
  unfold handlePutItemRequest
  refine TraceCond.bind (TraceCond.appendOne _ Ev.readBody (fun st => rfl)
    (fun i hx => Ev.noConfusion hx)) ?_
  intro _
  refine TraceCond.bind (TraceCond.appendOne _ Ev.unserialize (fun st => rfl)
    (fun i hx => Ev.noConfusion hx)) ?_
  intro _
  refine TraceCond.inTransaction _ ?_ (fun i hx => Ev.noConfusion hx)
    (fun i hx => Ev.noConfusion hx)
  refine TraceCond.bind (getItemHelper_traceCond _ req id _
    (fun i hx => by cases hx; exact hid) (fun i hx => Ev.noConfusion hx)) ?_
  intro item0
  refine TraceCond.bind (authorizeRequest_traceCond _ srv coll req "putItem" _
    (fun i hx => Ev.noConfusion hx)) ?_
  intro _
  cases item0 with
  | some it =>
      refine TraceCond.bind (TraceCond.appendOne _ (Ev.emit "willPutItem")
        (fun st => rfl) (fun i hx => Ev.noConfusion hx)) ?_
      intro _
      refine TraceCond.bind (TraceCond.appendOne _
        (Ev.save (it.updateValue req.rawBody).id)
        (fun st => rfl) (fun i hx => Ev.noConfusion hx)) ?_
      intro _
      refine TraceCond.bind (TraceCond.appendOne _ (Ev.emit "didPutItem")
        (fun st => rfl) (fun i hx => Ev.noConfusion hx)) ?_
      intro _
      refine TraceCond.bind (TraceCond.noTrace _ (fun st => rfl)) ?_
      intro _
      exact TraceCond.noTrace _ (fun st => rfl)
  | none =>
      refine TraceCond.bind (TraceCond.appendOne _ (Ev.emit "willPutItem")
        (fun st => rfl) (fun i hx => Ev.noConfusion hx)) ?_
      intro _
      refine TraceCond.bind (TraceCond.appendOne _
        (Ev.save (unserializeToStorage cfg.itemClassName req.rawBody).id)
        (fun st => rfl) (fun i hx => Ev.noConfusion hx)) ?_
      intro _
      refine TraceCond.bind (TraceCond.appendOne _ (Ev.emit "didPutItem")
        (fun st => rfl) (fun i hx => Ev.noConfusion hx)) ?_
      intro _
      refine TraceCond.bind (TraceCond.noTrace _ (fun st => rfl)) ?_
      intro _
      exact TraceCond.noTrace _ (fun st => rfl)

theorem handleGetItemsRequest_noEmpty (srv : Server)
    (coll : RegisteredCollection) (req : Request) :
    TraceCond noEmptyGetItem (handleGetItemsRequest srv coll req) := by
  unfold handleGetItemsRequest
  refine TraceCond.bind (TraceCond.appendOne _ Ev.readBody (fun st => rfl)
    (fun i hx => Ev.noConfusion hx)) ?_
  intro _
  refine TraceCond.bind (authorizeRequest_traceCond _ srv coll req "getItems" _
    (fun i hx => Ev.noConfusion hx)) ?_
  intro _
  refine TraceCond.bind (TraceCond.appendOne _ (Ev.storageGetItems req.rawIds)
    (fun st => rfl) (fun i hx => Ev.noConfusion hx)) ?_
  intro _
  refine TraceCond.bind (TraceCond.appendOne _ (Ev.emit "didGetItems")
    (fun st => rfl) (fun i hx => Ev.noConfusion hx)) ?_
  intro _
  refine TraceCond.bind (TraceCond.noTrace _ (fun st => rfl)) ?_
  intro _
  exact TraceCond.noTrace _ (fun st => rfl)

theorem handleFindItemsRequest_noEmpty (srv : Server)
    (coll : RegisteredCollection) (req : Request) :
    TraceCond noEmptyGetItem (handleFindItemsRequest srv coll req) := by
  unfold handleFindItemsRequest
  refine TraceCond.bind (authorizeRequest_traceCond _ srv coll req "findItems" _
    (fun i hx => Ev.noConfusion hx)) ?_
  intro _
  refine TraceCond.bind (TraceCond.appendOne _ Ev.storageFind (fun st => rfl)
    (fun i hx => Ev.noConfusion hx)) ?_
  intro _
  refine TraceCond.bind (TraceCond.appendOne _ (Ev.emit "didFindItems")
    (fun st => rfl) (fun i hx => Ev.noConfusion hx)) ?_
  intro _
  refine TraceCond.bind (TraceCond.noTrace _ (fun st => rfl)) ?_
  intro _
  exact TraceCond.noTrace _ (fun st => rfl)

theorem handleCountItemsRequest_noEmpty (srv : Server)
    (coll : RegisteredCollection) (req : Request) :
    TraceCond noEmptyGetItem (handleCountItemsRequest srv coll req) := by
  unfold handleCountItemsRequest
  refine TraceCond.bind (authorizeRequest_traceCond _ srv coll req "countItems" _
    (fun i hx => Ev.noConfusion hx)) ?_
  intro _
  refine TraceCond.bind (TraceCond.appendOne _ Ev.storageCount (fun st => rfl)
    (fun i hx => Ev.noConfusion hx)) ?_
  intro _
  refine TraceCond.bind (TraceCond.appendOne _ (Ev.emit "didCountItems")
    (fun st => rfl) (fun i hx => Ev.noConfusion hx)) ?_
  intro _
  refine TraceCond.bind (TraceCond.noTrace _ (fun st => rfl)) ?_
  intro _
  exact TraceCond.noTrace _ (fun st => rfl)

theorem handleFindAndDeleteItemsRequest_noEmpty (srv : Server)
    (coll : RegisteredCollection) (req : Request) :
    TraceCond noEmptyGetItem (handleFindAndDeleteItemsRequest srv coll req) := by
  unfold handleFindAndDeleteItemsRequest
  refine TraceCond.bind (authorizeRequest_traceCond _ srv coll req
    "findAndDeleteItems" _ (fun i hx => Ev.noConfusion hx)) ?_
  intro _
  refine TraceCond.bind (TraceCond.appendOne _ Ev.storageFindAndDelete
    (fun st => rfl) (fun i hx => Ev.noConfusion hx)) ?_
  intro _
  refine TraceCond.bind (TraceCond.appendOne _ (Ev.emit "didFindAndDeleteItems")
    (fun st => rfl) (fun i hx => Ev.noConfusion hx)) ?_
  intro _
  exact TraceCond.noTrace _ (fun st => rfl)

theorem handleCustomCollectionMethodRequest_noEmpty (srv : Server)
    (coll : RegisteredCollection) (cfg : CollectionConfig) (req : Request)
    (name : String) :
    TraceCond noEmptyGetItem
      (handleCustomCollectionMethodRequest srv coll cfg req name) := by
  unfold handleCustomCollectionMethodRequest
  by_cases hm : req.method = HMethod.POST <;>
    [rw [if_pos hm]; rw [if_neg hm]] <;>
    [refine TraceCond.bind (TraceCond.appendOne _ Ev.readBody (fun st => rfl)
      (fun i hx => Ev.noConfusion hx)) ?_;
     refine TraceCond.bind (TraceCond.of_pure _ ()) ?_] <;>
  · intro _
    refine TraceCond.bind (authorizeRequest_traceCond _ srv coll req name _
      (fun i hx => Ev.noConfusion hx)) ?_
    intro _
    refine TraceCond.bind ?_ ?_
    · cases List.lookup name coll.collectionMethods with
      | none => exact TraceCond.noTrace _ (fun st => rfl)
      | some entry =>
          cases entry with
          | shorthand =>
              refine TraceCond.bind (TraceCond.appendOne _
                (Ev.callCollectionMethod name req.options) (fun st => rfl)
                (fun i hx => Ev.noConfusion hx)) ?_
              intro b
              exact TraceCond.of_pure _ _
          | handler f =>
              exact TraceCond.noTrace _ (callCustomFn_trace f req none)
    · intro result
      exact writeCustomMethodResult_traceCond _ req result

theorem handleCustomItemMethodRequest_noEmpty (srv : Server)
    (coll : RegisteredCollection) (cfg : CollectionConfig) (req : Request)
    (id : String) (name : String) (hid : ¬(id = "")) :
    TraceCond noEmptyGetItem
      (handleCustomItemMethodRequest srv coll cfg req id name) := by
  unfold handleCustomItemMethodRequest
  by_cases hm : req.method = HMethod.POST <;>
    [rw [if_pos hm]; rw [if_neg hm]] <;>
    [refine TraceCond.bind (TraceCond.appendOne _ Ev.readBody (fun st => rfl)
      (fun i hx => Ev.noConfusion hx)) ?_;
     refine TraceCond.bind (TraceCond.of_pure _ ()) ?_] <;>
  · intro _
    refine TraceCond.bind (getItemHelper_traceCond _ req id none
      (fun i hx => by cases hx; exact hid) (fun i hx => Ev.noConfusion hx)) ?_
    intro item
    refine TraceCond.bind (authorizeRequest_traceCond _ srv coll req name _
      (fun i hx => Ev.noConfusion hx)) ?_
    intro _
    refine TraceCond.bind ?_ ?_
    · cases List.lookup name coll.itemMethods with
      | none => exact TraceCond.noTrace _ (fun st => rfl)
      | some entry =>
          cases entry with
          | shorthand =>
              cases item with
              | some it =>
                  refine TraceCond.bind (TraceCond.appendOne _
                    (Ev.callItemMethod name it.id req.options) (fun st => rfl)
                    (fun i hx => Ev.noConfusion hx)) ?_
                  intro b
                  exact TraceCond.of_pure _ _
              | none => exact TraceCond.noTrace _ (fun st => rfl)
          | handler f =>
              exact TraceCond.noTrace _ (callCustomFn_trace f req item)
    · intro result
      exact writeCustomMethodResult_traceCond _ req result

set_option maxHeartbeats 4000000 in
/-- In every dispatch branch that resolves an item, the id handed to the
handler is the (non-empty) `fragment1`. -/
theorem selectRoute_id_ne (coll : RegisteredCollection) (m : HMethod)
    (f1 f2 : String) :
    (∀ id, selectRoute coll m f1 f2 = Route.getItem id → ¬(id = "")) ∧
    (∀ id, selectRoute coll m f1 f2 = Route.putItem id → ¬(id = "")) ∧
    (∀ id, selectRoute coll m f1 f2 = Route.deleteItem id → ¬(id = "")) ∧
    (∀ id nm, selectRoute coll m f1 f2 = Route.itemMethod id nm → ¬(id = "")) := by
  refine ⟨fun id h => ?_, fun id h => ?_, fun id h => ?_, fun id nm h => ?_⟩ <;>
    (unfold selectRoute at h
     split_ifs at h with h1 h2 h3 h4 h5 h6 h7 h8 h9 h10) <;>
      first
        | exact Route.noConfusion h
        | (injection h with hi hn
           exact hi ▸ h4.2.1)
        | (injection h with hi
           exact hi ▸ h5.2.1)
        | (injection h with hi
           exact hi ▸ h7.2.1)
        | (injection h with hi
           exact hi ▸ h8.2.1)

/-- C10: along every dispatched collection request, each item-resolution call
recorded in the trace carries a non-empty id — the item guards of the route
table all require `fragment1` to be non-empty — so the helper's
`400 "id required"` branch is unreachable from route dispatch. -/
theorem C10_no_empty_item_resolution (srv : Server)
    (coll : RegisteredCollection) (cfg : CollectionConfig) (req : Request)
    (store : Store) :
    ∀ i, Ev.getItemCall i ∈
        (handleCollectionRequest srv coll cfg req (initSt store)).2.trace →
      ¬(i = "") := by
  intro i hmem
  have hdone : ∀ (x : M Unit), TraceCond noEmptyGetItem x →
      Ev.getItemCall i ∈ (x (initSt store)).2.trace → ¬(i = "") := by
    intro x hx hmemx
    rcases hx (initSt store) (Ev.getItemCall i) hmemx with h | h
    · exact absurd h (List.not_mem_nil _)
    · exact h i rfl
  unfold handleCollectionRequest at hmem
  revert hmem
  cases hroute : selectRoute coll req.method (splitPath req.path).1
      (splitPath req.path).2 with
  | getItems =>
      intro hmem
      exact hdone _ (handleGetItemsRequest_noEmpty srv coll req) hmem
  | countItems =>
      intro hmem
      exact hdone _ (handleCountItemsRequest_noEmpty srv coll req) hmem
  | collectionMethod name =>
      intro hmem
      exact hdone _
        (handleCustomCollectionMethodRequest_noEmpty srv coll cfg req name) hmem
  | itemMethod id name =>
      intro hmem
      exact hdone _ (handleCustomItemMethodRequest_noEmpty srv coll cfg req id
        name ((selectRoute_id_ne coll req.method _ _).2.2.2 id name hroute)) hmem
  | getItem id =>
      intro hmem
      exact hdone _ (handleGetItemRequest_noEmpty srv coll req id
        ((selectRoute_id_ne coll req.method _ _).1 id hroute)) hmem
  | postItem =>
      intro hmem
      exact hdone _ (handlePostItemRequest_noEmpty srv coll cfg req) hmem
  | putItem id =>
      intro hmem
      exact hdone _ (handlePutItemRequest_noEmpty srv coll cfg req id
        ((selectRoute_id_ne coll req.method _ _).2.1 id hroute)) hmem
  | deleteItem id =>
      intro hmem
      exact hdone _ (handleDeleteItemRequest_traceCond noEmptyGetItem srv coll
        req id (fun j hx => by cases hx; exact
          (selectRoute_id_ne coll req.method _ _).2.2.1 id hroute)
        (fun j hx => Ev.noConfusion hx) (fun mth j hx => Ev.noConfusion hx)
        (fun ev j hx => Ev.noConfusion hx) (fun j k hx => Ev.noConfusion hx)) hmem
  | findItems =>
      intro hmem
      exact hdone _ (handleFindItemsRequest_noEmpty srv coll req) hmem
  | findAndDeleteItems =>
      intro hmem
      exact hdone _ (handleFindAndDeleteItemsRequest_noEmpty srv coll req) hmem
  | next =>
      intro hmem
      exact hdone _ (TraceCond.appendOne _ Ev.nextHandler (fun st => rfl)
        (fun j hx => Ev.noConfusion hx)) hmem

/-- Concrete instantiation of `C10_no_empty_item_resolution`: the dispatched
DELETE of `/aaa` does resolve an item, and the resolution id is non-empty. -/
theorem C10_no_empty_item_resolution_witness :
    Ev.getItemCall "aaa" ∈
      (handleCollectionRequest srvW collW cfgW reqDelW (initSt storeW)).2.trace ∧
    ¬("aaa" = "") :=
  ⟨by decide,
   C10_no_empty_item_resolution srvW collW cfgW reqDelW storeW "aaa" (by decide)⟩

end KindaRepoServer
